import Mathlib

/-!
Verification development for the `ai-agent-framework` orchestration core
(Orchestrator, Task Router, Context Manager from `src/core/`).

The Python code is embedded shallowly:
* Python `dict`s (which preserve insertion order and have unique keys)
  become association lists `Dict α := List (String × α)` with
  insert-or-replace-in-place semantics (`dinsert`) and key filtering
  deletion (`derase`).
* Machine floats in the router's scoring arithmetic become exact `ℚ`
  (all constants involved are small decimal fractions, so order
  comparisons agree with the Python floats on the inputs considered).
* `datetime` timestamps become `Nat` second counts, passed explicitly
  as a `now` argument where the code calls `datetime.now()`.
* External effects (an agent's `setup()` raising, an agent's
  `execute_task` raising or returning a `TaskResult`) become explicit
  boolean/oracle parameters.
* Fields never consulted by the modelled logic (log messages,
  free-form `parameters`/`metadata` payloads, wall-clock execution
  timestamps on tasks) are elided; payload values are opaque `String`s.
-/

namespace MCPAgents

/-- Association list standing in for a Python `dict` (unique keys,
insertion order preserved). -/
abbrev Dict (α : Type) := List (String × α)

/-- `d[k]` lookup: first binding wins (Python dicts have unique keys). -/
def dlookup {α : Type} : Dict α → String → Option α
  | [], _ => none
  | (k', v) :: rest, k => if k' = k then some v else dlookup rest k

/-- `d[k] = v`: replace in place if the key exists (keeping its position,
as Python dicts do), else append at the end. -/
def dinsert {α : Type} : Dict α → String → α → Dict α
  | [], k, v => [(k, v)]
  | (k', v') :: rest, k, v =>
      if k' = k then (k, v) :: rest else (k', v') :: dinsert rest k v

/-- `del d[k]` / `d.pop(k)`: drop the binding for `k`. -/
def derase {α : Type} : Dict α → String → Dict α
  | [], _ => []
  | (k', v') :: rest, k =>
      if k' = k then derase rest k else (k', v') :: derase rest k

/-- `target.update(source)`: fold the source bindings into the target
in source order. -/
def dupdate {α : Type} (t : Dict α) : Dict α → Dict α
  | [] => t
  | kv :: rest => dupdate (dinsert t kv.1 kv.2) rest

theorem dlookup_dinsert_self {α : Type} (d : Dict α) (k : String) (v : α) :
    dlookup (dinsert d k v) k = some v := by
  induction d with
  | nil => simp [dinsert, dlookup]
  | cons kv rest ih =>
      obtain ⟨k', v'⟩ := kv
      by_cases h : k' = k
      · simp [dinsert, dlookup, h]
      · simp [dinsert, dlookup, h, ih]

theorem dlookup_dinsert_ne {α : Type} (d : Dict α) (k k₀ : String) (v : α)
    (h : k ≠ k₀) : dlookup (dinsert d k v) k₀ = dlookup d k₀ := by
  induction d with
  | nil => simp [dinsert, dlookup, h]
  | cons kv rest ih =>
      obtain ⟨k', v'⟩ := kv
      by_cases hk : k' = k
      · subst hk
        simp [dinsert, dlookup, h]
      · simp [dinsert, dlookup, hk, ih]

theorem dlookup_derase_self {α : Type} (d : Dict α) (k : String) :
    dlookup (derase d k) k = none := by
  induction d with
  | nil => simp [derase, dlookup]
  | cons kv rest ih =>
      obtain ⟨k', v'⟩ := kv
      by_cases h : k' = k
      · simp [derase, h, ih]
      · simp [derase, h, dlookup, ih]

theorem dlookup_derase_ne {α : Type} (d : Dict α) (k k₀ : String)
    (h : k ≠ k₀) : dlookup (derase d k) k₀ = dlookup d k₀ := by
  induction d with
  | nil => simp [derase]
  | cons kv rest ih =>
      obtain ⟨k', v'⟩ := kv
      by_cases hk : k' = k
      · subst hk
        simp [derase, dlookup, ih, fun hh : k' = k₀ => h hh]
      · by_cases hk0 : k' = k₀
        · subst hk0
          simp [derase, hk, dlookup]
        · simp [derase, hk, dlookup, hk0, ih]

/-- Keys entirely absent from the source dict are unaffected by `dupdate`. -/
theorem dlookup_dupdate_of_forall_ne {α : Type} (s : Dict α) (t : Dict α)
    (k : String) (h : ∀ x ∈ s.map Prod.fst, x ≠ k) :
    dlookup (dupdate t s) k = dlookup t k := by
  induction s generalizing t with
  | nil => simp [dupdate]
  | cons kv rest ih =>
      obtain ⟨k', v'⟩ := kv
      rw [dupdate, ih _ (fun x hx => h x (by simp [hx])),
        dlookup_dinsert_ne _ _ _ _ (h k' (by simp))]

/-- Value of `dlookup` after a bulk `dupdate`: a key bound in the source
(whose keys are unique, as in any Python dict) takes the source's value. -/
theorem dlookup_dupdate_of_mem {α : Type} (s : Dict α) (t : Dict α)
    (k : String) (v : α) (hnd : (s.map Prod.fst).Nodup)
    (h : dlookup s k = some v) : dlookup (dupdate t s) k = some v := by
  induction s generalizing t with
  | nil => simp [dlookup] at h
  | cons kv rest ih =>
      obtain ⟨k', v'⟩ := kv
      simp only [List.map_cons, List.nodup_cons] at hnd
      by_cases hk : k' = k
      · subst hk
        have hv : v' = v := by simpa [dlookup] using h
        subst hv
        rw [dupdate, dlookup_dupdate_of_forall_ne]
        · exact dlookup_dinsert_self _ _ _
        · intro x hx hxe
          subst hxe
          exact hnd.1 (by simpa using hx)
      · simp only [dlookup, if_neg hk] at h
        rw [dupdate]
        exact ih _ hnd.2 h

/-- A key absent from the source is unaffected by `dupdate`. -/
theorem dlookup_dupdate_of_not_mem {α : Type} (s : Dict α) (t : Dict α)
    (k : String) (h : dlookup s k = none) :
    dlookup (dupdate t s) k = dlookup t k := by
  induction s generalizing t with
  | nil => simp [dupdate]
  | cons kv rest ih =>
      obtain ⟨k', v'⟩ := kv
      by_cases hk : k' = k
      · simp [dlookup, hk] at h
      · simp only [dlookup, if_neg hk] at h
        rw [dupdate, ih _ h, dlookup_dinsert_ne _ _ _ _ hk]

/-! ## Shared value types (`src/core/types.py`) -/

/-- `TaskStatus` enum. -/
inductive TaskStatus where
  | pending | running | completed | failed | cancelled
deriving DecidableEq, Repr

/-- `AgentStatus` enum. -/
inductive AgentStatus where
  | healthy | unhealthy | offline
deriving DecidableEq, Repr

/-- `Task` dataclass. `description`, `parameters`, `created_at`,
`deadline` and the wall-clock execution timestamps are elided (no
modelled code path reads them); `result` payloads are opaque strings. -/
structure Task where
  id : String
  type : String
  priority : Int := 0
  dependencies : List String := []
  assigned_agent : Option String := none
  status : TaskStatus := .pending
  result : Option String := none
  error : Option String := none
deriving DecidableEq, Repr

/-- `TaskResult` dataclass (payloads opaque, `metadata` elided). -/
structure TaskResult where
  task_id : String
  success : Bool
  data : Option String := none
  error : Option String := none
deriving DecidableEq, Repr

/-- `AgentRegistration` dataclass (fields the core never reads elided). -/
structure AgentRegistration where
  name : String
  capabilities : List String := []
  supported_task_types : List String := []
  priority : Int := 0
  max_concurrent_tasks : Nat := 1
deriving DecidableEq, Repr

/-- `AgentInfo` dataclass (`last_heartbeat` elided: no claim touches the
heartbeat loop). -/
structure AgentInfo where
  registration : AgentRegistration
  status : AgentStatus := .healthy
  current_tasks : List String := []
  error_count : Nat := 0
  total_tasks_completed : Nat := 0
deriving DecidableEq, Repr

/-- `Context` dataclass. Key-value payloads are opaque strings,
timestamps are second counts. -/
structure Context where
  conversation_id : String
  user_id : String
  session_data : Dict String := []
  shared_memory : Dict String := []
  active_tasks : List Task := []
  agent_states : Dict (Dict String) := []
  created_at : Nat := 0
  updated_at : Nat := 0
deriving DecidableEq, Repr

/-! ## Task Router (`src/core/task_router.py`)

The router object carries a mutable `config` dict and a `stats` dict;
the statistics counters never feed back into any routing decision, so
the selection functions are modelled as pure functions of the config.
Float arithmetic is modelled exactly over `ℚ`. -/

/-- `TaskRouter.config` defaults (`task_router.py`, `__init__`). The
Python key `max_agent_workload_ratio` is rendered here as
`max_agent_workload_ceiling`. -/
structure RouterConfig where
  max_agent_workload_ceiling : ℚ := 8/10
  priority_weight : ℚ := 4/10
  workload_weight : ℚ := 3/10
  capability_weight : ℚ := 3/10
  enable_load_balancing : Bool := true
  enable_priority_boosting : Bool := true
deriving DecidableEq, Repr

/-- The default `TaskRouter` configuration. -/
def defaultRouterConfig : RouterConfig := {}

/-- `TaskRouter._can_agent_handle_task`: healthy, task type supported,
strictly under the hard capacity, and load fraction strictly under the
workload ceiling (an agent with `max_concurrent_tasks = 0` counts as
fully loaded, fraction `1.0`). -/
def can_agent_handle_task (cfg : RouterConfig) (agent_name : String)
    (task : Task) (available_agents : Dict AgentInfo) : Bool :=
  match dlookup available_agents agent_name with
  | none => false
  | some agent_info =>
      agent_info.status = AgentStatus.healthy &&
      task.type ∈ agent_info.registration.supported_task_types &&
      agent_info.current_tasks.length
        < agent_info.registration.max_concurrent_tasks &&
      (let current_load : ℚ := agent_info.current_tasks.length
       let max_load : ℚ := agent_info.registration.max_concurrent_tasks
       let load_frac : ℚ := if 0 < max_load then current_load / max_load else 1
       load_frac < cfg.max_agent_workload_ceiling)

/-- `TaskRouter._find_capable_agents`: scan `available_agents` in dict
order, keeping the names passing `_can_agent_handle_task`. -/
def find_capable_agents (cfg : RouterConfig) (task : Task)
    (available_agents : Dict AgentInfo) : List String :=
  (available_agents.map Prod.fst).filter
    (fun n => can_agent_handle_task cfg n task available_agents)

/-- `TaskRouter._extract_task_capabilities`: the static task-type to
required-capability table. -/
def extract_task_capabilities (task : Task) : List String :=
  if task.type = "read_file" then ["file_operations"]
  else if task.type = "write_file" then ["file_operations"]
  else if task.type = "list_directory" then
    ["file_operations", "directory_operations"]
  else if task.type = "analyze_directory" then
    ["file_operations", "file_analysis"]
  else if task.type = "search_files" then ["file_operations", "file_search"]
  else if task.type = "backup_files" then
    ["file_operations", "batch_operations"]
  else if task.type = "create_task" then ["task_management"]
  else if task.type = "manage_workflow" then
    ["workflow_coordination", "task_management"]
  else if task.type = "schedule_tasks" then ["task_scheduling"]
  else if task.type = "monitor_progress" then ["task_monitoring"]
  else if task.type = "orchestrate_workflow" then
    ["workflow_orchestration", "agent_coordination"]
  else if task.type = "coordinate_agents" then
    ["agent_coordination", "multi_agent_communication"]
  else if task.type = "allocate_resources" then ["resource_allocation"]
  else if task.type = "resolve_conflicts" then ["conflict_resolution"]
  else if task.type = "handle_emergencies" then
    ["error_recovery", "system_monitoring"]
  else []

/-- `TaskRouter._calculate_capability_score`. The capability table rows
are duplicate-free, so set intersection cardinality is the filtered
count. -/
def calculate_capability_score (task : Task) (agent_info : AgentInfo) : ℚ :=
  if task.type ∉ agent_info.registration.supported_task_types then 0
  else
    let task_capabilities := extract_task_capabilities task
    if task_capabilities = [] then 8/10
    else
      let matched := task_capabilities.filter
        (fun c => c ∈ agent_info.registration.capabilities)
      let overlap : ℚ := (matched.length : ℚ) / (task_capabilities.length : ℚ)
      if overlap = 1 then 1
      else if 1/2 ≤ overlap then 6/10 + overlap * (4/10)
      else overlap * (6/10)

/-- `TaskRouter._calculate_workload_score`: `1 − load`, a `+0.1` bonus
under half load when load balancing is enabled, capped at `1.0`. -/
def calculate_workload_score (cfg : RouterConfig) (agent_info : AgentInfo) : ℚ :=
  let current_load : ℚ := agent_info.current_tasks.length
  let max_load : ℚ := agent_info.registration.max_concurrent_tasks
  if max_load ≤ 0 then 0
  else
    let load_frac := current_load / max_load
    let workload_score := 1 - load_frac
    let workload_score :=
      if cfg.enable_load_balancing && load_frac < 1/2
      then workload_score + 1/10 else workload_score
    min workload_score 1

/-- `TaskRouter._calculate_priority_score`. -/
def calculate_priority_score (task : Task) (agent_info : AgentInfo) : ℚ :=
  let task_priority := task.priority
  let agent_priority := agent_info.registration.priority
  let task_priority_norm : ℚ :=
    if 1 ≤ task_priority then ((task_priority : ℚ) - 1) / 9 else 1/2
  let agent_priority_norm : ℚ :=
    if 1 ≤ agent_priority then ((agent_priority : ℚ) - 1) / 9 else 1/2
  let priority_score : ℚ :=
    if 7 ≤ task_priority ∧ 7 ≤ agent_priority then 1
    else if task_priority ≤ 3 ∧ agent_priority ≤ 3 then 8/10
    else 1 - |task_priority_norm - agent_priority_norm|
  max priority_score 0

/-- `TaskRouter._calculate_performance_score`. -/
def calculate_performance_score (agent_info : AgentInfo) : ℚ :=
  let total_completed : ℚ := agent_info.total_tasks_completed
  let error_cnt : ℚ := agent_info.error_count
  if total_completed = 0 then 1/2
  else
    let success_rate := max ((total_completed - error_cnt) / total_completed) 0
    let experience_weight := min (total_completed / 100) 1
    min (success_rate * (8/10) + experience_weight * (2/10)) 1

/-- `TaskRouter._calculate_agent_score`: weighted sum of the four axes,
normalized by the total weight (performance weight fixed at `0.1`). -/
def calculate_agent_score (cfg : RouterConfig) (task : Task)
    (agent_info : AgentInfo) : ℚ :=
  let total_score :=
    calculate_capability_score task agent_info * cfg.capability_weight +
    calculate_workload_score cfg agent_info * cfg.workload_weight +
    calculate_priority_score task agent_info * cfg.priority_weight +
    calculate_performance_score agent_info * (1/10)
  let max_possible :=
    cfg.capability_weight + cfg.workload_weight + cfg.priority_weight + 1/10
  if 0 < max_possible then total_score / max_possible else 0

/-- First pair with the maximal second component. Equals the head of the
list after a stable sort by score descending, which is how
`_score_agents` followed by `scored_agents[0]` picks the winner. -/
def argmaxFirst : List (String × ℚ) → Option (String × ℚ)
  | [] => none
  | x :: xs =>
      match argmaxFirst xs with
      | none => some x
      | some y => if x.2 < y.2 then some y else some x

/-- `TaskRouter.find_best_agent`. The pinned-agent branch guards on
Python truthiness of `task.assigned_agent` (absent or empty string both
fall through to scoring). -/
def find_best_agent (cfg : RouterConfig) (task : Task)
    (available_agents : Dict AgentInfo) : Option String :=
  let pinned : Option String :=
    match task.assigned_agent with
    | some a =>
        if a ≠ "" && can_agent_handle_task cfg a task available_agents
        then some a else none
    | none => none
  match pinned with
  | some a => some a
  | none =>
      let capable_agents := find_capable_agents cfg task available_agents
      if capable_agents = [] then none
      else
        let scored_agents := capable_agents.map (fun n =>
          (n, match dlookup available_agents n with
              | some agent_info => calculate_agent_score cfg task agent_info
              | none => 0))
        (argmaxFirst scored_agents).map Prod.fst

/-! ## Orchestrator (`src/core/orchestrator.py`)

The orchestrator holds the task table `_active_tasks` and the queue
`_task_queue`; in Python both hold the same mutable `Task` objects.
Here the task table is the single store and the queue holds task ids
(task ids are unique across live tasks, which every Python code path
preserves). The external effects are explicit parameters: whether an
agent setup raised, and per task an `ExecOutcome` oracle giving what
the agent `execute_task` call did. -/

/-- What the orchestrator consults on a registered agent instance:
`name`, `registration`, and the `BaseAgent.can_handle_task` inputs (the
instance keeps its own `current_tasks` list, distinct from the
orchestrator-side `AgentInfo.current_tasks`, plus the subclass hook
`_can_handle_task_specific`). -/
structure AgentInstance where
  name : String
  registration : AgentRegistration
  instance_current_tasks : List String := []
  can_handle_specific : Task → Bool := fun _ => true

/-- `BaseAgent.can_handle_task` (`src/agents/base_agent.py`): task type
supported, instance under its own capacity, subclass hook agrees. -/
def AgentInstance.can_handle_task (a : AgentInstance) (task : Task) : Bool :=
  task.type ∈ a.registration.supported_task_types &&
  a.instance_current_tasks.length < a.registration.max_concurrent_tasks &&
  a.can_handle_specific task

/-- The `Orchestrator.config` entries the modelled code paths read. -/
structure OrchConfig where
  max_concurrent_tasks : Nat := 50
deriving DecidableEq, Repr

/-- Orchestrator mutable state (`_active_contexts`, `_active_workflows`
and the timing fields are elided: no modelled decision reads them). -/
structure OrchState where
  registered_agents : Dict AgentInfo := []
  agent_instances : Dict AgentInstance := []
  active_tasks : Dict Task := []
  task_results : Dict TaskResult := []
  task_queue : List String := []

/-- `Orchestrator.register_agent`. The `AgentInfo` (status OFFLINE) and
the instance are stored first; then `setup()` runs. `setup_raises`
models `await agent_instance.setup()` raising, which jumps to the
`except` branch and returns `False`. A `setup()` that merely returns
`False` is not an exception: the code ignores the return value. -/
def register_agent (st : OrchState) (agent_instance : AgentInstance)
    (setup_raises : Bool) : Bool × OrchState :=
  let agent_name := agent_instance.name
  let agent_info : AgentInfo :=
    { registration := agent_instance.registration
      status := AgentStatus.offline
      current_tasks := []
      error_count := 0
      total_tasks_completed := 0 }
  let st := { st with
      registered_agents := dinsert st.registered_agents agent_name agent_info
      agent_instances := dinsert st.agent_instances agent_name agent_instance }
  if setup_raises then (false, st)
  else
    (true, { st with registered_agents :=
        (dinsert st.registered_agents agent_name
          { agent_info with status := AgentStatus.healthy }) })

/-- `Orchestrator.submit_task`. `fresh_id` stands for the generated
uuid fragment used when the submitted task has a falsy id. -/
def submit_task (st : OrchState) (task : Task) (fresh_id : String) :
    String × OrchState :=
  let tid := if task.id = "" then fresh_id else task.id
  let task := { task with id := tid }
  (tid, { st with
      active_tasks := dinsert st.active_tasks tid task
      task_queue := st.task_queue ++ [tid] })

/-- `Orchestrator.get_task_result`. -/
def get_task_result (st : OrchState) (task_id : String) : Option TaskResult :=
  dlookup st.task_results task_id

/-- `Orchestrator.get_task_status`. -/
def get_task_status (st : OrchState) (task_id : String) : Option TaskStatus :=
  (dlookup st.active_tasks task_id).map Task.status

/-- `Orchestrator._are_dependencies_satisfied`: every listed dependency
is present in `_active_tasks` with status COMPLETED (an empty
dependency list is trivially satisfied). -/
def are_dependencies_satisfied (st : OrchState) (task : Task) : Bool :=
  task.dependencies.all (fun dep_id =>
    match dlookup st.active_tasks dep_id with
    | some dep_task => dep_task.status = TaskStatus.completed
    | none => false)

/-- First pair with minimal second component. Equals the head after the
stable ascending sort by workload that `_find_suitable_agent` performs
before returning `suitable_agents[0][0]`. -/
def argminFirst : List (String × Nat) → Option (String × Nat)
  | [] => none
  | x :: xs =>
      match argminFirst xs with
      | none => some x
      | some y => if y.2 < x.2 then some y else some x

/-- `Orchestrator._find_suitable_agent`: the pinned agent if its
instance `can_handle_task` check passes, else the least-loaded healthy
agent whose instance `can_handle_task` check passes (first such agent
in registration order on ties). The Task Router is not consulted. -/
def find_suitable_agent (st : OrchState) (task : Task) : Option String :=
  let pinned : Option String :=
    match task.assigned_agent with
    | some a =>
        if a ≠ "" then
          match dlookup st.registered_agents a, dlookup st.agent_instances a with
          | some _, some inst =>
              if inst.can_handle_task task then some a else none
          | _, _ => none
        else none
    | none => none
  match pinned with
  | some a => some a
  | none =>
      let suitable_agents := st.registered_agents.filter (fun kv =>
        kv.2.status = AgentStatus.healthy &&
        (match dlookup st.agent_instances kv.1 with
         | some inst => inst.can_handle_task task
         | none => false))
      (argminFirst (suitable_agents.map
        (fun kv => (kv.1, kv.2.current_tasks.length)))).map Prod.fst

/-- Result of one delegated `agent_instance.execute_task` call: either
the awaited coroutine raised, or it returned a `TaskResult`. -/
inductive ExecOutcome where
  | raised (msg : String)
  | returned (r : TaskResult)

/-- First half of `Orchestrator._execute_task`, up to the
`await agent_instance.execute_task(...)` suspension point: select an
agent; on failure mark the task FAILED with the no-agent error and stop;
on success mark it RUNNING, pin the agent and record the task id in the
AgentInfo bookkeeping. Returns the dispatched `(task id, agent)` pair
when the await is reached. -/
def dispatch_task (st : OrchState) (tid : String) :
    OrchState × Option (String × String) :=
  match dlookup st.active_tasks tid with
  | none => (st, none)
  | some task =>
      match find_suitable_agent st task with
      | none =>
          ({ st with active_tasks := (dinsert st.active_tasks tid
              { task with status := TaskStatus.failed
                          error := some "No suitable agent available" }) },
           none)
      | some agent_name =>
          match dlookup st.registered_agents agent_name with
          | none => (st, none)
          | some agent_info =>
              let task := { task with
                  status := TaskStatus.running
                  assigned_agent := some agent_name }
              let agent_info := { agent_info with
                  current_tasks := agent_info.current_tasks ++ [tid] }
              ({ st with
                  active_tasks := dinsert st.active_tasks tid task
                  registered_agents :=
                    dinsert st.registered_agents agent_name agent_info },
               some (tid, agent_name))

/-- Second half of `Orchestrator._execute_task`, after the await
returns or raises. A raise lands in the `except` branch: FAILED, error
recorded, agent bookkeeping reverted and `error_count` bumped, and no
`TaskResult` is stored. A returned result updates the status from
`result.success`, reverts the bookkeeping, and stores the result. -/
def complete_task (st : OrchState) (tid agent_name : String)
    (outcome : ExecOutcome) : OrchState :=
  match dlookup st.active_tasks tid, dlookup st.registered_agents agent_name with
  | some task, some agent_info =>
      (match outcome with
       | ExecOutcome.raised msg =>
           let task := { task with status := TaskStatus.failed
                                   error := some msg }
           let st := { st with active_tasks := dinsert st.active_tasks tid task }
           (match task.assigned_agent with
            | some a =>
                (match dlookup st.registered_agents a with
                 | some info =>
                     if tid ∈ info.current_tasks then
                       { st with registered_agents :=
                           (dinsert st.registered_agents a
                             { info with
                                 current_tasks := info.current_tasks.erase tid
                                 error_count := info.error_count + 1 }) }
                     else st
                 | none => st)
            | none => st)
       | ExecOutcome.returned r =>
           let task :=
             if r.success then
               { task with status := TaskStatus.completed, result := r.data }
             else
               { task with status := TaskStatus.failed, error := r.error }
           let agent_info :=
             if r.success then
               { agent_info with
                   total_tasks_completed := agent_info.total_tasks_completed + 1 }
             else
               { agent_info with error_count := agent_info.error_count + 1 }
           let agent_info :=
             if tid ∈ agent_info.current_tasks then
               { agent_info with
                   current_tasks := agent_info.current_tasks.erase tid }
             else agent_info
           { st with
               active_tasks := dinsert st.active_tasks tid task
               registered_agents :=
                 dinsert st.registered_agents agent_name agent_info
               task_results := dinsert st.task_results tid r })
  | _, _ => st

/-- `Orchestrator._execute_task` for a single task: the two halves
composed (the only suspension point is the agent call itself). -/
def execute_task (outcomes : String → ExecOutcome) (st : OrchState)
    (tid : String) : OrchState :=
  match dispatch_task st tid with
  | (st1, none) => st1
  | (st1, some (t, a)) => complete_task st1 t a (outcomes t)

/-- Number of tasks currently RUNNING in the task table. -/
def count_running (tasks : Dict Task) : Nat :=
  (tasks.filter (fun kv => kv.2.status = TaskStatus.running)).length

/-- Python list slicing `l[:k]` for a possibly negative `k`. -/
def pySliceTo {α : Type} (l : List α) (k : Int) : List α :=
  if 0 ≤ k then l.take k.toNat else l.take (l.length - (-k).toNat)

/-- Readiness test applied to each queue entry by the processor loop:
the task object (reached here through its id) passes
`_are_dependencies_satisfied`. -/
def queue_task_ready (st : OrchState) (tid : String) : Bool :=
  match dlookup st.active_tasks tid with
  | some task => are_dependencies_satisfied st task
  | none => false

/-- Dispatch phase of one `asyncio.gather` round: each `_execute_task`
coroutine runs up to its await point, in list order, accumulating the
`(task id, agent)` pairs that reached the await. -/
def dispatch_all (st : OrchState) : List String → OrchState × List (String × String)
  | [] => (st, [])
  | tid :: rest =>
      let s := dispatch_task st tid
      let r := dispatch_all s.1 rest
      (r.1, s.2.toList ++ r.2)

/-- Completion phase of the gather round: apply each awaited outcome.
(The per-pair updates target disjoint task ids plus commuting per-agent
counter updates, so applying them in dispatch order is faithful.) -/
def complete_all (outcomes : String → ExecOutcome) (st : OrchState) :
    List (String × String) → OrchState
  | [] => st
  | p :: rest =>
      complete_all outcomes (complete_task st p.1 p.2 (outcomes p.1)) rest

/-- One iteration of `Orchestrator._task_processor_loop`: scan the
queue snapshot, move every dependency-satisfied task out of the queue,
truncate that ready list to the free global slots, and run the
truncated list through `asyncio.gather`. -/
def task_processor_pass (cfg : OrchConfig) (outcomes : String → ExecOutcome)
    (st : OrchState) : OrchState :=
  if st.task_queue = [] then st
  else
    let ready_tasks := st.task_queue.filter (queue_task_ready st)
    let st1 := { st with
        task_queue := st.task_queue.filter (fun tid => ¬ queue_task_ready st tid) }
    if ready_tasks = [] then st1
    else
      let current_running := count_running st1.active_tasks
      let available_slots : Int :=
        (cfg.max_concurrent_tasks : Int) - current_running
      let tasks_to_execute := pySliceTo ready_tasks available_slots
      let dispatched := dispatch_all st1 tasks_to_execute
      complete_all outcomes dispatched.1 dispatched.2

/-! ## Context Manager (`src/core/context_manager.py`)

File storage becomes a `store : Dict StoredContext` keyed by
conversation id (one JSON file per id); archiving a context renames its
file into `archived/` with a timestamp suffix, modelled by moving the
record into the `archived` list tagged with the sweep time. `now`
stands for `datetime.now()` at each call. -/

/-- The `ContextManager.config` entries the modelled code paths read. -/
structure CMConfig where
  context_ttl_hours : Nat := 24
  auto_cleanup_interval : Nat := 3600
  enable_persistence : Bool := true
  enable_context_sharing : Bool := true
deriving DecidableEq, Repr

/-- The serializable subset of a `Context` written by
`_persist_context` (live `Task` objects are stored as ids only). -/
structure StoredContext where
  conversation_id : String
  user_id : String
  session_data : Dict String := []
  shared_memory : Dict String := []
  agent_states : Dict (Dict String) := []
  created_at : Nat := 0
  updated_at : Nat := 0
  task_ids : List String := []
deriving DecidableEq, Repr

/-- `ContextManager` mutable state. The `conversation_id` index slot is
initialized by the constructor but never read or written afterwards, so
it is elided. -/
structure CMState where
  active_contexts : Dict Context := []
  index_user_id : Dict (List String) := []
  index_agent_states : Dict (List String) := []
  store : Dict StoredContext := []
  archived : List (String × Nat × StoredContext) := []
  last_cleanup : Nat := 0
deriving DecidableEq, Repr

/-- Python `set.add` on a set modelled as a duplicate-free list. -/
def setAdd (s : List String) (x : String) : List String :=
  if x ∈ s then s else s ++ [x]

/-- Python `set.discard`. -/
def setDiscard (s : List String) (x : String) : List String :=
  s.filter (fun y => y != x)

/-- `_persist_context`: serialize the context, keeping task ids only. -/
def persist_record (context : Context) : StoredContext :=
  { conversation_id := context.conversation_id
    user_id := context.user_id
    session_data := context.session_data
    shared_memory := context.shared_memory
    agent_states := context.agent_states
    created_at := context.created_at
    updated_at := context.updated_at
    task_ids := context.active_tasks.map Task.id }

/-- `_load_context`: reconstruct a context from its stored record;
`active_tasks` comes back empty by contract. -/
def load_record (rec : StoredContext) : Context :=
  { conversation_id := rec.conversation_id
    user_id := rec.user_id
    session_data := rec.session_data
    shared_memory := rec.shared_memory
    active_tasks := []
    agent_states := rec.agent_states
    created_at := rec.created_at
    updated_at := rec.updated_at }

/-- `_update_indexes`: record the conversation id under its user and
under every agent name appearing in `agent_states`. -/
def update_indexes (st : CMState) (context : Context) : CMState :=
  let cid := context.conversation_id
  let idxU :=
    match dlookup st.index_user_id context.user_id with
    | some s => dinsert st.index_user_id context.user_id (setAdd s cid)
    | none => dinsert st.index_user_id context.user_id [cid]
  let idxA := context.agent_states.foldl
    (fun idx kv =>
      match dlookup idx kv.1 with
      | some s => dinsert idx kv.1 (setAdd s cid)
      | none => dinsert idx kv.1 [cid])
    st.index_agent_states
  { st with index_user_id := idxU, index_agent_states := idxA }

/-- One index entry update inside `_remove_from_indexes`: discard the
conversation id from the entry under `key`, deleting the entry if it
becomes empty. -/
def index_discard (cid : String) (idx : Dict (List String)) (key : String) :
    Dict (List String) :=
  match dlookup idx key with
  | some s =>
      let s := setDiscard s cid
      if s = [] then derase idx key else dinsert idx key s
  | none => idx

/-- The `_remove_from_indexes` loop over `agent_states` entries. -/
def discard_agent_indexes (cid : String) (idx : Dict (List String))
    (l : Dict (Dict String)) : Dict (List String) :=
  l.foldl (fun idx kv => index_discard cid idx kv.1) idx

/-- `_remove_from_indexes`: discard the conversation id from its user
entry and from every agent entry named in its `agent_states`, deleting
entries that become empty. -/
def remove_from_indexes (st : CMState) (context : Context) : CMState :=
  let cid := context.conversation_id
  { st with
      index_user_id := index_discard cid st.index_user_id context.user_id
      index_agent_states :=
        discard_agent_indexes cid st.index_agent_states context.agent_states }

/-- `ContextManager.create_context`: idempotent on an already active
id, else build, index and (if enabled) persist a fresh context. -/
def create_context (cfg : CMConfig) (now : Nat) (st : CMState)
    (conversation_id user_id : String) (initial_data : Dict String) :
    Context × CMState :=
  match dlookup st.active_contexts conversation_id with
  | some context => (context, st)
  | none =>
      let context : Context :=
        { conversation_id := conversation_id
          user_id := user_id
          session_data := initial_data
          shared_memory := []
          active_tasks := []
          agent_states := []
          created_at := now
          updated_at := now }
      let st := { st with active_contexts :=
          (dinsert st.active_contexts conversation_id context) }
      let st := update_indexes st context
      let st :=
        if cfg.enable_persistence then
          { st with store :=
              (dinsert st.store conversation_id (persist_record context)) }
        else st
      (context, st)

/-- `ContextManager.get_context`: an active hit is touched
(`updated_at := now`); a miss falls back to the persistent store when
enabled, re-activating and re-indexing the loaded context. -/
def get_context (cfg : CMConfig) (now : Nat) (st : CMState)
    (conversation_id : String) : Option Context × CMState :=
  match dlookup st.active_contexts conversation_id with
  | some context =>
      let context := { context with updated_at := now }
      (some context,
       { st with active_contexts :=
           (dinsert st.active_contexts conversation_id context) })
  | none =>
      if cfg.enable_persistence then
        match dlookup st.store conversation_id with
        | some rec =>
            let context := load_record rec
            let st := { st with active_contexts :=
                (dinsert st.active_contexts conversation_id context) }
            (some context, update_indexes st context)
        | none => (none, st)
      else (none, st)

/-- Per-agent union of `agent_states`, source entries processed in
order, source winning on inner key conflicts (the `merge_contexts`
agent-state loop). -/
def merge_agent_states (target : Dict (Dict String)) :
    Dict (Dict String) → Dict (Dict String)
  | [] => target
  | (a, s) :: rest =>
      let merged :=
        match dlookup target a with
        | some t => dinsert target a (dupdate t s)
        | none => dinsert target a s
      merge_agent_states merged rest

/-- `ContextManager.merge_contexts`: fetch both contexts (each fetch
touches its `updated_at`), fold the source session data, shared memory
and agent states into the target with the source winning key conflicts,
append the source tasks whose ids were absent from the target, touch
and (if enabled) persist the target. The source stays registered. -/
def merge_contexts (cfg : CMConfig) (now : Nat) (st : CMState)
    (target_conversation_id source_conversation_id : String) :
    Bool × CMState :=
  if ¬ cfg.enable_context_sharing then (false, st)
  else
    let t := get_context cfg now st target_conversation_id
    let s := get_context cfg now t.2 source_conversation_id
    match t.1, s.1 with
    | some target_context, some source_context =>
        let target_context := { target_context with
            session_data :=
              dupdate target_context.session_data source_context.session_data
            shared_memory :=
              dupdate target_context.shared_memory source_context.shared_memory
            agent_states :=
              merge_agent_states target_context.agent_states
                source_context.agent_states
            active_tasks :=
              target_context.active_tasks ++
                source_context.active_tasks.filter
                  (fun task =>
                    task.id ∉ target_context.active_tasks.map Task.id)
            updated_at := now }
        let st := { s.2 with active_contexts :=
            (dinsert s.2.active_contexts target_conversation_id target_context) }
        let st :=
          if cfg.enable_persistence then
            { st with store := (dinsert st.store target_conversation_id
                (persist_record target_context)) }
          else st
        (true, st)
    | _, _ => (false, s.2)

/-- `_should_cleanup`: throttle by the configured interval. -/
def should_cleanup (cfg : CMConfig) (now : Nat) (st : CMState) : Bool :=
  (cfg.auto_cleanup_interval : Int) ≤ (now : Int) - (st.last_cleanup : Int)

/-- `_archive_context`: rename the backing record into the archive
(tagged with the sweep time); nothing happens if no record exists. -/
def archive_context (now : Nat) (st : CMState) (context : Context) : CMState :=
  match dlookup st.store context.conversation_id with
  | some rec =>
      { st with
          store := derase st.store context.conversation_id
          archived := st.archived ++ [(context.conversation_id, now, rec)] }
  | none => st

/-- Removal of one expired conversation id inside the cleanup sweep:
pop it from the active set, drop it from the indexes, and archive the
backing record when persistence is enabled. -/
def remove_expired_one (cfg : CMConfig) (now : Nat) (st : CMState)
    (cid : String) : CMState :=
  match dlookup st.active_contexts cid with
  | none => st
  | some context =>
      let st := { st with active_contexts := derase st.active_contexts cid }
      let st := remove_from_indexes st context
      if cfg.enable_persistence then archive_context now st context else st

/-- `ContextManager.cleanup_expired_contexts`: under the throttle,
collect every active context whose `updated_at` is strictly older than
the TTL, remove each, and stamp the sweep time. -/
def cleanup_expired_contexts (cfg : CMConfig) (now : Nat) (st : CMState) :
    Nat × CMState :=
  if ¬ should_cleanup cfg now st then (0, st)
  else
    let ttl : Int := (cfg.context_ttl_hours : Int) * 3600
    let expired_contexts := (st.active_contexts.filter
      (fun kv => (now : Int) - (kv.2.updated_at : Int) > ttl)).map Prod.fst
    let st := expired_contexts.foldl (remove_expired_one cfg now) st
    (expired_contexts.length, { st with last_cleanup := now })

/-! ## Helper lemmas on the selection combinators -/

theorem argmaxFirst_mem {l : List (String × ℚ)} {x : String × ℚ}
    (h : argmaxFirst l = some x) : x ∈ l := by
  induction l with
  | nil => simp [argmaxFirst] at h
  | cons y ys ih =>
      rw [argmaxFirst] at h
      rcases he : argmaxFirst ys with - | z
      · rw [he] at h
        simp only [Option.some.injEq] at h
        simp [← h]
      · rw [he] at h
        by_cases hz : y.2 < z.2
        · simp only [if_pos hz, Option.some.injEq] at h
          exact List.mem_cons_of_mem _ (ih (by rw [he, ← h]))
        · simp only [if_neg hz, Option.some.injEq] at h
          simp [← h]

theorem argminFirst_mem {l : List (String × Nat)} {x : String × Nat}
    (h : argminFirst l = some x) : x ∈ l := by
  induction l with
  | nil => simp [argminFirst] at h
  | cons y ys ih =>
      rw [argminFirst] at h
      rcases he : argminFirst ys with - | z
      · rw [he] at h
        simp only [Option.some.injEq] at h
        simp [← h]
      · rw [he] at h
        by_cases hz : z.2 < y.2
        · simp only [if_pos hz, Option.some.injEq] at h
          exact List.mem_cons_of_mem _ (ih (by rw [he, ← h]))
        · simp only [if_neg hz, Option.some.injEq] at h
          simp [← h]

theorem argminFirst_eq_none {l : List (String × Nat)} :
    argminFirst l = none ↔ l = [] := by
  cases l with
  | nil => simp [argminFirst]
  | cons y ys =>
      simp only [argminFirst]
      cases argminFirst ys with
      | none => simp
      | some z => by_cases hz : z.2 < y.2 <;> simp [hz]

theorem argminFirst_le {l : List (String × Nat)} :
    ∀ {x : String × Nat}, argminFirst l = some x → ∀ y ∈ l, x.2 ≤ y.2 := by
  induction l with
  | nil => intro x h; simp [argminFirst] at h
  | cons a as ih =>
      intro x h
      rw [argminFirst] at h
      cases he : argminFirst as with
      | none =>
          rw [he] at h
          obtain rfl : a = x := by simpa using h
          obtain rfl : as = [] := argminFirst_eq_none.mp he
          intro y hy
          obtain rfl : y = a := by simpa using hy
          exact le_refl _
      | some z =>
          rw [he] at h
          by_cases hz : z.2 < a.2
          · simp only [if_pos hz, Option.some.injEq] at h
            obtain rfl : z = x := h
            intro y hy
            rcases List.mem_cons.mp hy with rfl | hy
            · exact le_of_lt hz
            · exact ih he y hy
          · simp only [if_neg hz, Option.some.injEq] at h
            obtain rfl : a = x := h
            intro y hy
            rcases List.mem_cons.mp hy with rfl | hy
            · exact le_refl _
            · exact le_trans (not_lt.mp hz) (ih he y hy)

/-- `dlookup` success from membership is impossible to refute: some
binding for the key exists. -/
theorem dlookup_isSome_of_mem {α : Type} {d : Dict α} {k : String} {v : α}
    (h : (k, v) ∈ d) : (dlookup d k).isSome := by
  induction d with
  | nil => simp at h
  | cons kv rest ih =>
      obtain ⟨k', v'⟩ := kv
      by_cases hk : k' = k
      · simp [dlookup, hk]
      · rcases List.mem_cons.mp h with heq | h
        · cases heq
          simp at hk
        · simp [dlookup, hk, ih h]

/-! ## Claim C7 -/

/-- C7: a pinned `assigned_agent` that qualifies (passes
`_can_agent_handle_task`: healthy, supports the task type, under hard
capacity and under the workload ceiling) is returned by
`find_best_agent` immediately, regardless of any scoring. -/
theorem C7_pinned_agent_wins (cfg : RouterConfig) (task : Task)
    (available_agents : Dict AgentInfo) (a : String)
    (hpin : task.assigned_agent = some a) (hne : a ≠ "")
    (hqual : can_agent_handle_task cfg a task available_agents = true) :
    find_best_agent cfg task available_agents = some a := by
  simp [find_best_agent, hpin, hne, hqual]

/-- Snapshot for the C7 witness: a pinned low-scoring agent next to a
much better scoring alternative. -/
def C7_agents : Dict AgentInfo :=
  [("pin_a",
    { registration :=
        { name := "pin_a", supported_task_types := ["read_file"]
          priority := 1, max_concurrent_tasks := 2 }
      status := AgentStatus.healthy }),
   ("strong_b",
    { registration :=
        { name := "strong_b", supported_task_types := ["read_file"]
          priority := 9, max_concurrent_tasks := 10 }
      status := AgentStatus.healthy })]

def C7_task : Task :=
  { id := "w1", type := "read_file", priority := 9
    assigned_agent := some "pin_a" }

theorem C7_pinned_agent_wins_witness :
    C7_task.assigned_agent = some "pin_a" ∧ "pin_a" ≠ "" ∧
    can_agent_handle_task defaultRouterConfig "pin_a" C7_task C7_agents = true ∧
    find_best_agent defaultRouterConfig C7_task C7_agents = some "pin_a" :=
  ⟨rfl, by decide,
   by norm_num [can_agent_handle_task, dlookup, C7_task, C7_agents,
     defaultRouterConfig],
   C7_pinned_agent_wins _ _ _ _ rfl (by decide)
     (by norm_num [can_agent_handle_task, dlookup, C7_task, C7_agents,
       defaultRouterConfig])⟩

/-! ## Claim C6 -/

/-- C6: an agent whose load fraction is at or above the workload
ceiling is never the router choice for an unpinned task, even when
strictly under its hard capacity. -/
theorem C6_ceiling_excludes (cfg : RouterConfig) (task : Task)
    (available_agents : Dict AgentInfo) (name : String) (info : AgentInfo)
    (hunpinned : task.assigned_agent = none)
    (hlook : dlookup available_agents name = some info)
    (hceil : cfg.max_agent_workload_ceiling ≤
      (if 0 < (info.registration.max_concurrent_tasks : ℚ)
       then (info.current_tasks.length : ℚ) /
         (info.registration.max_concurrent_tasks : ℚ)
       else 1)) :
    find_best_agent cfg task available_agents ≠ some name := by
  have hch : can_agent_handle_task cfg name task available_agents = false := by
    simp only [can_agent_handle_task, hlook]
    simp only [Bool.and_eq_false_iff]
    right
    simp only [decide_eq_false_iff_not, not_lt]
    simpa using hceil
  intro hbest
  rw [find_best_agent] at hbest
  simp only [hunpinned] at hbest
  by_cases hcap : find_capable_agents cfg task available_agents = []
  · simp [hcap] at hbest
  · simp only [if_neg hcap, Option.map_eq_some'] at hbest
    obtain ⟨p, hp, hp1⟩ := hbest
    have hmem := argmaxFirst_mem hp
    simp only [List.mem_map] at hmem
    obtain ⟨n, hn, hfn⟩ := hmem
    have hn1 : n = name := by rw [← hp1, ← hfn]
    subst hn1
    rw [find_capable_agents] at hn
    have hpred : can_agent_handle_task cfg n task available_agents = true := by
      simpa using (List.mem_filter.mp hn).2
    rw [hch] at hpred
    simp at hpred

/-- Snapshot for the C6 witness: the spec scenario, an agent at 4 of 5
slots (fraction exactly the 0.8 default ceiling). -/
def C6_info : AgentInfo :=
  { registration :=
      { name := "busy", supported_task_types := ["read_file"]
        priority := 5, max_concurrent_tasks := 5 }
    status := AgentStatus.healthy
    current_tasks := ["j1", "j2", "j3", "j4"] }

def C6_agents : Dict AgentInfo := [("busy", C6_info)]

def C6_task : Task := { id := "w2", type := "read_file", priority := 5 }

theorem C6_ceiling_excludes_witness :
    C6_task.assigned_agent = none ∧
    dlookup C6_agents "busy" = some C6_info ∧
    find_best_agent defaultRouterConfig C6_task C6_agents ≠ some "busy" :=
  ⟨rfl, by decide,
   C6_ceiling_excludes defaultRouterConfig C6_task C6_agents "busy" C6_info
     rfl (by decide)
     (by norm_num [C6_info, defaultRouterConfig])⟩

/-! ## Claim C5 -/

/-- Two agents sharing a registration with hard capacity 10, at loads 0
and 1: the under-utilization bonus pushes both raw scores to at least
`1.0` and the cap flattens them to exactly `1.0`. -/
def C5_info_zero : AgentInfo :=
  { registration := { name := "cap10", max_concurrent_tasks := 10 }
    current_tasks := [] }

def C5_info_one : AgentInfo :=
  { registration := { name := "cap10", max_concurrent_tasks := 10 }
    current_tasks := ["x1"] }

/-- C5 counterexample: with `max_concurrent_tasks = 10` the workload
score does NOT strictly decrease from load 0 to load 1 — both loads
score exactly 1, because the `min(score, 1.0)` cap absorbs the `+0.1`
load-balancing bonus. -/
theorem C5_counterexample :
    C5_info_one.registration = C5_info_zero.registration ∧
    C5_info_zero.current_tasks.length < C5_info_one.current_tasks.length ∧
    C5_info_one.current_tasks.length <
      C5_info_zero.registration.max_concurrent_tasks ∧
    calculate_workload_score defaultRouterConfig C5_info_one =
      calculate_workload_score defaultRouterConfig C5_info_zero := by
  refine ⟨rfl, by decide, by decide, ?_⟩
  norm_num [calculate_workload_score, C5_info_zero, C5_info_one,
    defaultRouterConfig]

/-- Strict antitonicity of the pre-cap workload formula in the load
fraction, for either load-balancing setting. -/
theorem workload_formula_antitone (lb : Bool) (a b : ℚ) (hab : a < b) :
    (if lb && decide (b < 1/2) then 1 - b + 1/10 else 1 - b) <
    (if lb && decide (a < 1/2) then 1 - a + 1/10 else 1 - a) := by
  cases lb
  · simp
    linarith
  · simp only [Bool.true_and, decide_eq_true_eq]
    split_ifs <;> linarith

/-- Capping at 1 keeps the order, and collapses it to equality only
when the larger side is already pegged at the cap. -/
theorem min_one_of_lt {x y : ℚ} (hxy : y < x) :
    min y 1 ≤ min x 1 ∧ (min y 1 = min x 1 → min x 1 = 1) := by
  constructor
  · exact min_le_min (le_of_lt hxy) le_rfl
  · intro he
    by_contra hne
    have hx_lt : x < 1 := by
      rcases le_or_lt 1 x with h | h
      · exact absurd (min_eq_right h) hne
      · exact h
    have h1 : min x 1 = x := min_eq_left (le_of_lt hx_lt)
    have h2 : min y 1 ≤ y := min_le_left _ _
    rw [he, h1] at h2
    linarith

/-- C5 (amended): holding the registration fixed, the workload score is
antitone in `current_tasks` (for loads under the hard capacity), and
the decrease is strict except when the `min(score, 1.0)` cap pegs both
scores at exactly 1. -/
theorem C5_workload_score_antitone (cfg : RouterConfig)
    (info info' : AgentInfo)
    (hreg : info'.registration = info.registration)
    (hlt : info.current_tasks.length < info'.current_tasks.length)
    (hcap : info'.current_tasks.length <
      info.registration.max_concurrent_tasks) :
    calculate_workload_score cfg info' ≤ calculate_workload_score cfg info ∧
    (calculate_workload_score cfg info' = calculate_workload_score cfg info →
      calculate_workload_score cfg info = 1) := by
  have hM : 0 < info.registration.max_concurrent_tasks :=
    lt_of_le_of_lt (Nat.zero_le _) hcap
  have hMQ : (0:ℚ) < (info.registration.max_concurrent_tasks : ℚ) := by
    exact_mod_cast hM
  have hab : (info.current_tasks.length : ℚ) /
      (info.registration.max_concurrent_tasks : ℚ) <
      (info'.current_tasks.length : ℚ) /
      (info.registration.max_concurrent_tasks : ℚ) :=
    (div_lt_div_iff_of_pos_right hMQ).mpr (by exact_mod_cast hlt)
  simp only [calculate_workload_score, hreg]
  rw [if_neg (not_le.mpr hMQ), if_neg (not_le.mpr hMQ)]
  exact min_one_of_lt
    (workload_formula_antitone cfg.enable_load_balancing _ _ hab)

/-- Two agents with capacity 5 at loads 1 and 3 for the C5 witness. -/
def C5_info_load1 : AgentInfo :=
  { registration := { name := "cap5", max_concurrent_tasks := 5 }
    current_tasks := ["x1"] }

def C5_info_load3 : AgentInfo :=
  { registration := { name := "cap5", max_concurrent_tasks := 5 }
    current_tasks := ["x1", "x2", "x3"] }

theorem C5_workload_score_antitone_witness :
    C5_info_load3.registration = C5_info_load1.registration ∧
    C5_info_load1.current_tasks.length < C5_info_load3.current_tasks.length ∧
    C5_info_load3.current_tasks.length <
      C5_info_load1.registration.max_concurrent_tasks ∧
    (calculate_workload_score defaultRouterConfig C5_info_load3 ≤
      calculate_workload_score defaultRouterConfig C5_info_load1 ∧
     (calculate_workload_score defaultRouterConfig C5_info_load3 =
        calculate_workload_score defaultRouterConfig C5_info_load1 →
      calculate_workload_score defaultRouterConfig C5_info_load1 = 1)) :=
  ⟨rfl, by decide, by decide,
   C5_workload_score_antitone defaultRouterConfig C5_info_load1 C5_info_load3
     rfl (by decide) (by decide)⟩

/-! ## Claim C1 -/

/-- An agent whose `setup()` raises, used to exercise the registration
failure path from an empty orchestrator. -/
def C1_agent : AgentInstance :=
  { name := "bad_agent"
    registration := { name := "bad_agent", supported_task_types := ["t"] } }

/-- C1 counterexample: registering an agent whose `setup()` raises
returns `False`, but the freshly stored `AgentInfo` and agent instance
are NOT rolled back — both registries still hold `bad_agent` after the
failed call (the store happens before `setup()` and the `except` branch
does not clean up). -/
theorem C1_counterexample :
    (register_agent {} C1_agent true).1 = false ∧
    dlookup (register_agent {} C1_agent true).2.registered_agents
      "bad_agent" ≠ none ∧
    (dlookup (register_agent {} C1_agent true).2.agent_instances
      "bad_agent").isSome = true :=
  ⟨rfl, by decide, rfl⟩

/-- C1 (amended): when `setup()` raises, `register_agent` returns
`False`, and the registries retain the just-stored entries: the
`AgentInfo` (left with status OFFLINE, never marked HEALTHY) and the
agent instance both remain registered under the agent name. -/
theorem C1_register_agent_failed_setup (st : OrchState)
    (agent_instance : AgentInstance) :
    (register_agent st agent_instance true).1 = false ∧
    dlookup (register_agent st agent_instance true).2.registered_agents
        agent_instance.name =
      some { registration := agent_instance.registration
             status := AgentStatus.offline
             current_tasks := []
             error_count := 0
             total_tasks_completed := 0 } ∧
    dlookup (register_agent st agent_instance true).2.agent_instances
        agent_instance.name = some agent_instance := by
  refine ⟨rfl, ?_, ?_⟩
  · exact dlookup_dinsert_self _ _ _
  · exact dlookup_dinsert_self _ _ _

/-! ## Claim C3 -/

/-- One healthy agent at 4 of 5 slots: its load fraction hits the
router default workload ceiling `0.8`, while its `BaseAgent` instance
check only enforces the hard capacity `4 < 5`. -/
def C3_reg : AgentRegistration :=
  { name := "agent_a", supported_task_types := ["t"]
    priority := 5, max_concurrent_tasks := 5 }

def C3_agents : Dict AgentInfo :=
  [("agent_a",
    { registration := C3_reg, status := AgentStatus.healthy
      current_tasks := ["j1", "j2", "j3", "j4"] })]

def C3_st : OrchState :=
  { registered_agents := C3_agents
    agent_instances :=
      [("agent_a",
        { name := "agent_a", registration := C3_reg
          instance_current_tasks := ["j1", "j2", "j3", "j4"] })] }

def C3_task : Task := { id := "x", type := "t", priority := 5 }

/-- C3 counterexample: on the same snapshot the Orchestrator selects
the agent (its `can_handle_task` check enforces only the hard
capacity), while the Task Router `find_best_agent` returns none (its
workload-ceiling filter excludes the agent) — the Orchestrator does not
delegate selection, and in particular omits the ceiling filter. -/
theorem C3_counterexample :
    find_suitable_agent C3_st C3_task = some "agent_a" ∧
    find_best_agent defaultRouterConfig C3_task C3_st.registered_agents =
      none ∧
    some "agent_a" ≠ (none : Option String) := by
  have hch : can_agent_handle_task defaultRouterConfig "agent_a" C3_task
      C3_agents = false := by
    norm_num [can_agent_handle_task, dlookup, C3_task, C3_agents, C3_reg,
      defaultRouterConfig]
  have hcap : find_capable_agents defaultRouterConfig C3_task C3_agents = [] := by
    rw [find_capable_agents,
      show C3_agents.map Prod.fst = ["agent_a"] from rfl]
    simp [hch]
  refine ⟨rfl, ?_, by decide⟩
  rw [show C3_st.registered_agents = C3_agents from rfl, find_best_agent]
  simp [hcap, show C3_task.assigned_agent = none from rfl]

/-- C3 (amended): for an unpinned task, `_find_suitable_agent` performs
its own selection (not the Task Router scoring): the returned agent is
a healthy registered agent whose instance passes `can_handle_task`, and
its orchestrator-side `current_tasks` count is minimal among all such
agents. -/
theorem C3_find_suitable_agent_spec (st : OrchState) (task : Task)
    (a : String) (hunpinned : task.assigned_agent = none)
    (hfound : find_suitable_agent st task = some a) :
    ∃ info, (a, info) ∈ st.registered_agents ∧
      info.status = AgentStatus.healthy ∧
      (∃ inst, dlookup st.agent_instances a = some inst ∧
        inst.can_handle_task task = true) ∧
      ∀ b infoB, (b, infoB) ∈ st.registered_agents →
        infoB.status = AgentStatus.healthy →
        (∃ instB, dlookup st.agent_instances b = some instB ∧
          instB.can_handle_task task = true) →
        info.current_tasks.length ≤ infoB.current_tasks.length := by
  rw [find_suitable_agent] at hfound
  simp only [hunpinned, Option.map_eq_some'] at hfound
  obtain ⟨p, hargmin, hp1⟩ := hfound
  have hmem := argminFirst_mem hargmin
  simp only [List.mem_map] at hmem
  obtain ⟨kv, hkv, hf⟩ := hmem
  have hkv2 := List.mem_filter.mp hkv
  obtain ⟨hkv_mem, hpred⟩ := hkv2
  simp only [Bool.and_eq_true, decide_eq_true_eq] at hpred
  obtain ⟨hhealthy, hinst⟩ := hpred
  obtain ⟨ha, hlen⟩ : kv.1 = a ∧ p.2 = kv.2.current_tasks.length := by
    constructor
    · rw [← hp1, ← hf]
    · rw [← hf]
  refine ⟨kv.2, ?_, hhealthy, ?_, ?_⟩
  · rw [← ha]
    exact hkv_mem
  · rcases he : dlookup st.agent_instances kv.1 with - | inst
    · rw [he] at hinst
      cases hinst
    · rw [he] at hinst
      exact ⟨inst, by rw [← ha]; exact he, hinst⟩
  · intro b infoB hbmem hbhealthy hbinst
    have hbpred : (infoB.status = AgentStatus.healthy &&
        (match dlookup st.agent_instances b with
         | some inst => inst.can_handle_task task
         | none => false)) = true := by
      obtain ⟨instB, hbl, hbc⟩ := hbinst
      rw [hbl]
      simp [hbhealthy, hbc]
    have hbfil : (b, infoB) ∈ st.registered_agents.filter (fun kv =>
        kv.2.status = AgentStatus.healthy &&
        (match dlookup st.agent_instances kv.1 with
         | some inst => inst.can_handle_task task
         | none => false)) :=
      List.mem_filter.mpr ⟨hbmem, hbpred⟩
    have := argminFirst_le hargmin (b, infoB.current_tasks.length)
      (by
        simp only [List.mem_map]
        exact ⟨(b, infoB), hbfil, rfl⟩)
    rw [hlen] at this
    exact this

theorem C3_find_suitable_agent_spec_witness :
    C3_task.assigned_agent = none ∧
    find_suitable_agent C3_st C3_task = some "agent_a" ∧
    (∃ info, ("agent_a", info) ∈ C3_st.registered_agents ∧
      info.status = AgentStatus.healthy ∧
      (∃ inst, dlookup C3_st.agent_instances "agent_a" = some inst ∧
        inst.can_handle_task C3_task = true) ∧
      ∀ b infoB, (b, infoB) ∈ C3_st.registered_agents →
        infoB.status = AgentStatus.healthy →
        (∃ instB, dlookup C3_st.agent_instances b = some instB ∧
          instB.can_handle_task C3_task = true) →
        info.current_tasks.length ≤ infoB.current_tasks.length) :=
  ⟨rfl, rfl, C3_find_suitable_agent_spec C3_st C3_task "agent_a" rfl rfl⟩

/-! ## Claim C2 -/

/-- Two independent pending tasks queued in order, a global concurrency
ceiling of one, and no registered agents (the execution outcome oracle
is irrelevant to the queue bookkeeping). -/
def C2_t1 : Task := { id := "t1", type := "w" }

def C2_t2 : Task := { id := "t2", type := "w" }

def C2_st : OrchState :=
  { active_tasks := [("t1", C2_t1), ("t2", C2_t2)]
    task_queue := ["t1", "t2"] }

def C2_cfg : OrchConfig := { max_concurrent_tasks := 1 }

def C2_outcomes : String → ExecOutcome := fun _ => ExecOutcome.raised "unused"

/-- C2 failing run: both queued tasks are ready (empty dependencies,
PENDING), but with one free slot the pass removes BOTH from the queue
and executes only the first. Afterwards `t2` is still PENDING, no
longer in the queue, and a further pass is a no-op — the ready task was
silently dropped and never becomes eligible again, contradicting the
claimed eligibility of undispatched ready tasks. -/
theorem C2_ready_task_dropped :
    C2_st.task_queue.filter (queue_task_ready C2_st) = ["t1", "t2"] ∧
    get_task_status C2_st "t2" = some TaskStatus.pending ∧
    (task_processor_pass C2_cfg C2_outcomes C2_st).task_queue = [] ∧
    get_task_status (task_processor_pass C2_cfg C2_outcomes C2_st) "t2" =
      some TaskStatus.pending ∧
    task_processor_pass C2_cfg C2_outcomes
        (task_processor_pass C2_cfg C2_outcomes C2_st) =
      task_processor_pass C2_cfg C2_outcomes C2_st :=
  ⟨by decide, by decide, by decide, by decide, rfl⟩

/-! ## Claim C10 -/

/-- An agent name returned by `_find_suitable_agent` is a registered
key: both branches only produce names present in the registry. -/
theorem find_suitable_agent_isSome {st : OrchState} {t : Task} {a : String}
    (h : find_suitable_agent st t = some a) :
    (dlookup st.registered_agents a).isSome := by
  have hscan : ∀ (l : Dict AgentInfo),
      ((argminFirst ((l.filter (fun kv =>
          kv.2.status = AgentStatus.healthy &&
          (match dlookup st.agent_instances kv.1 with
           | some inst => inst.can_handle_task t
           | none => false))).map
        (fun kv => (kv.1, kv.2.current_tasks.length)))).map Prod.fst =
          some a) →
      l = st.registered_agents →
      (dlookup st.registered_agents a).isSome := by
    intro l hl hle
    simp only [Option.map_eq_some'] at hl
    obtain ⟨p, hp, hp1⟩ := hl
    have hmem := argminFirst_mem hp
    simp only [List.mem_map] at hmem
    obtain ⟨kv, hkv, hf⟩ := hmem
    have hkvm := (List.mem_filter.mp hkv).1
    have : (a, kv.2) ∈ st.registered_agents := by
      rw [← hle]
      have : kv.1 = a := by rw [← hp1, ← hf]
      rw [← this]
      exact hkvm
    exact dlookup_isSome_of_mem this
  rw [find_suitable_agent] at h
  rcases hpin : t.assigned_agent with - | b
  · rw [hpin] at h
    dsimp only at h
    exact hscan _ h rfl
  · rw [hpin] at h
    dsimp only at h
    by_cases hb : b = ""
    · rw [if_neg (fun hne : b ≠ "" => hne hb)] at h
      dsimp only at h
      exact hscan _ h rfl
    · rw [if_pos hb] at h
      rcases hr : dlookup st.registered_agents b with - | info
      · rw [hr] at h
        rcases hi : dlookup st.agent_instances b with - | inst <;>
          · rw [hi] at h
            dsimp only at h
            exact hscan _ h rfl
      · rw [hr] at h
        rcases hi : dlookup st.agent_instances b with - | inst
        · rw [hi] at h
          dsimp only at h
          exact hscan _ h rfl
        · rw [hi] at h
          dsimp only at h
          by_cases hc : inst.can_handle_task t = true
          · rw [if_pos hc] at h
            dsimp only at h
            simp only [Option.some.injEq] at h
            subst h
            simp [hr]
          · rw [if_neg hc] at h
            dsimp only at h
            exact hscan _ h rfl

/-- C10: `_execute_task` stores a `TaskResult` exactly when the agent
call returned one. If no suitable agent is found, or the agent call
raises, the task is FAILED with its error field set but
`get_task_result` still returns none; if the agent returned a result
(success or explicit failure), that result is retrievable and the
status follows `result.success`. -/
theorem C10_result_storage (outcomes : String → ExecOutcome)
    (st : OrchState) (tid : String) (tsk : Task)
    (htask : dlookup st.active_tasks tid = some tsk)
    (hres : dlookup st.task_results tid = none) :
    (find_suitable_agent st tsk = none →
      get_task_result (execute_task outcomes st tid) tid = none ∧
      dlookup (execute_task outcomes st tid).active_tasks tid =
        some { tsk with status := TaskStatus.failed
                        error := some "No suitable agent available" }) ∧
    (∀ a msg, find_suitable_agent st tsk = some a →
      outcomes tid = ExecOutcome.raised msg →
      get_task_result (execute_task outcomes st tid) tid = none ∧
      dlookup (execute_task outcomes st tid).active_tasks tid =
        some { tsk with status := TaskStatus.failed
                        assigned_agent := some a
                        error := some msg }) ∧
    (∀ a r, find_suitable_agent st tsk = some a →
      outcomes tid = ExecOutcome.returned r →
      get_task_result (execute_task outcomes st tid) tid = some r ∧
      get_task_status (execute_task outcomes st tid) tid =
        some (if r.success then TaskStatus.completed else TaskStatus.failed)) := by
  refine ⟨?_, ?_, ?_⟩
  · intro hfind
    have hd : execute_task outcomes st tid =
        { st with active_tasks := (dinsert st.active_tasks tid
            { tsk with status := TaskStatus.failed
                       error := some "No suitable agent available" }) } := by
      rw [execute_task, dispatch_task, htask]
      dsimp only
      rw [hfind]
    rw [hd]
    exact ⟨hres, dlookup_dinsert_self _ _ _⟩
  · intro a msg hfind hout
    obtain ⟨info, hinfo⟩ :=
      Option.isSome_iff_exists.mp (find_suitable_agent_isSome hfind)
    have hd : execute_task outcomes st tid =
        complete_task
          { st with
              active_tasks := (dinsert st.active_tasks tid
                { tsk with status := TaskStatus.running
                           assigned_agent := some a })
              registered_agents := (dinsert st.registered_agents a
                { info with current_tasks := info.current_tasks ++ [tid] }) }
          tid a (outcomes tid) := by
      rw [execute_task, dispatch_task, htask]
      dsimp only
      rw [hfind]
      dsimp only
      rw [hinfo]
    rw [hd, hout]
    simp only [complete_task, dlookup_dinsert_self]
    rw [if_pos (show tid ∈ info.current_tasks ++ [tid] by simp)]
    exact ⟨hres, dlookup_dinsert_self _ _ _⟩
  · intro a r hfind hout
    obtain ⟨info, hinfo⟩ :=
      Option.isSome_iff_exists.mp (find_suitable_agent_isSome hfind)
    have hd : execute_task outcomes st tid =
        complete_task
          { st with
              active_tasks := (dinsert st.active_tasks tid
                { tsk with status := TaskStatus.running
                           assigned_agent := some a })
              registered_agents := (dinsert st.registered_agents a
                { info with current_tasks := info.current_tasks ++ [tid] }) }
          tid a (outcomes tid) := by
      rw [execute_task, dispatch_task, htask]
      dsimp only
      rw [hfind]
      dsimp only
      rw [hinfo]
    rw [hd, hout]
    simp only [complete_task, dlookup_dinsert_self]
    constructor
    · exact dlookup_dinsert_self _ _ _
    · rw [get_task_status]
      dsimp only
      rw [dlookup_dinsert_self]
      cases hs : r.success <;> simp [hs]

/-- Concrete C10 scenario: one healthy capable agent, one pending task,
and an agent call returning a successful result. -/
def C10_reg : AgentRegistration :=
  { name := "agent_a", supported_task_types := ["t"]
    max_concurrent_tasks := 2 }

def C10_task : Task := { id := "t", type := "t" }

def C10_st : OrchState :=
  { registered_agents :=
      [("agent_a", { registration := C10_reg, status := AgentStatus.healthy })]
    agent_instances :=
      [("agent_a", { name := "agent_a", registration := C10_reg })]
    active_tasks := [("t", C10_task)]
    task_queue := ["t"] }

def C10_r : TaskResult := { task_id := "t", success := true, data := some "ok" }

def C10_outcomes : String → ExecOutcome := fun _ => ExecOutcome.returned C10_r

theorem C10_result_storage_witness :
    dlookup C10_st.active_tasks "t" = some C10_task ∧
    dlookup C10_st.task_results "t" = none ∧
    find_suitable_agent C10_st C10_task = some "agent_a" ∧
    get_task_result (execute_task C10_outcomes C10_st "t") "t" = some C10_r ∧
    get_task_status (execute_task C10_outcomes C10_st "t") "t" =
      some (if C10_r.success then TaskStatus.completed else TaskStatus.failed) :=
  ⟨rfl, rfl, rfl,
   ((C10_result_storage C10_outcomes C10_st "t" C10_task rfl rfl).2.2
     "agent_a" C10_r rfl rfl).1,
   ((C10_result_storage C10_outcomes C10_st "t" C10_task rfl rfl).2.2
     "agent_a" C10_r rfl rfl).2⟩

/-! ## Claim C4 -/

theorem dispatch_task_queue (st : OrchState) (tid : String) :
    (dispatch_task st tid).1.task_queue = st.task_queue := by
  rw [dispatch_task]
  repeat' split
  all_goals rfl

theorem complete_task_queue (st : OrchState) (tid a : String)
    (o : ExecOutcome) :
    (complete_task st tid a o).task_queue = st.task_queue := by
  rw [complete_task]
  repeat' split
  all_goals try rfl
  all_goals dsimp only
  all_goals repeat' split
  all_goals rfl

theorem dispatch_task_fst (st : OrchState) (tid : String) :
    ∀ p ∈ (dispatch_task st tid).2.toList, p.1 = tid := by
  rw [dispatch_task]
  repeat' split
  all_goals simp

theorem dispatch_task_lookup_ne (st : OrchState) (tid x : String)
    (h : tid ≠ x) :
    dlookup (dispatch_task st tid).1.active_tasks x =
      dlookup st.active_tasks x := by
  rw [dispatch_task]
  repeat' split
  all_goals simp [dlookup_dinsert_ne _ _ _ _ h]

theorem complete_task_lookup_ne (st : OrchState) (tid a x : String)
    (o : ExecOutcome) (h : tid ≠ x) :
    dlookup (complete_task st tid a o).active_tasks x =
      dlookup st.active_tasks x := by
  rw [complete_task]
  repeat' split
  all_goals try simp only [dlookup_dinsert_ne _ _ _ _ h]
  all_goals repeat' split
  all_goals simp [dlookup_dinsert_ne _ _ _ _ h]

theorem dispatch_all_queue (l : List String) (st : OrchState) :
    (dispatch_all st l).1.task_queue = st.task_queue := by
  induction l generalizing st with
  | nil => rfl
  | cons tid rest ih =>
      rw [dispatch_all]
      dsimp only
      rw [ih, dispatch_task_queue]

theorem dispatch_all_fst (l : List String) (st : OrchState) :
    ∀ p ∈ (dispatch_all st l).2, p.1 ∈ l := by
  induction l generalizing st with
  | nil => intro p hp; simp [dispatch_all] at hp
  | cons tid rest ih =>
      intro p hp
      rw [dispatch_all] at hp
      dsimp only at hp
      rcases List.mem_append.mp hp with hp | hp
      · rw [dispatch_task_fst st tid p hp]
        exact List.mem_cons_self _ _
      · exact List.mem_cons_of_mem _ (ih _ p hp)

theorem dispatch_all_lookup (l : List String) (st : OrchState) (x : String)
    (h : x ∉ l) :
    dlookup (dispatch_all st l).1.active_tasks x =
      dlookup st.active_tasks x := by
  induction l generalizing st with
  | nil => rfl
  | cons tid rest ih =>
      rw [dispatch_all]
      dsimp only
      rw [ih _ (fun hh => h (List.mem_cons_of_mem _ hh)),
        dispatch_task_lookup_ne _ _ _
          (fun hh => h (by rw [← hh]; exact List.mem_cons_self _ _))]

theorem complete_all_queue (recs : List (String × String))
    (outcomes : String → ExecOutcome) (st : OrchState) :
    (complete_all outcomes st recs).task_queue = st.task_queue := by
  induction recs generalizing st with
  | nil => rfl
  | cons p rest ih =>
      rw [complete_all, ih, complete_task_queue]

theorem complete_all_lookup (recs : List (String × String))
    (outcomes : String → ExecOutcome) (st : OrchState) (x : String)
    (h : ∀ p ∈ recs, p.1 ≠ x) :
    dlookup (complete_all outcomes st recs).active_tasks x =
      dlookup st.active_tasks x := by
  induction recs generalizing st with
  | nil => rfl
  | cons p rest ih =>
      rw [complete_all,
        ih _ (fun q hq => h q (List.mem_cons_of_mem _ hq)),
        complete_task_lookup_ne _ _ _ _ _ (h p (List.mem_cons_self _ _))]

/-- Elements of a Python slice `l[:k]` come from `l`. -/
theorem pySliceTo_subset {α : Type} (l : List α) (k : Int) :
    ∀ y ∈ pySliceTo l k, y ∈ l := by
  intro y hy
  rw [pySliceTo] at hy
  split at hy <;> exact List.take_subset _ _ hy

/-- After one processor pass the queue is exactly the snapshot queue
minus its ready entries (ready tasks beyond the free slots included:
they are removed and not re-queued). -/
theorem task_processor_pass_queue (cfg : OrchConfig)
    (outcomes : String → ExecOutcome) (st : OrchState) :
    (task_processor_pass cfg outcomes st).task_queue =
      st.task_queue.filter (fun tid => ¬ queue_task_ready st tid) := by
  rw [task_processor_pass]
  by_cases hq : st.task_queue = []
  · rw [if_pos hq, hq]
    rfl
  · rw [if_neg hq]
    dsimp only
    split
    · rfl
    · rw [complete_all_queue, dispatch_all_queue]

/-- A task that is not among the pass's ready entries keeps its task
table binding untouched by the pass. -/
theorem task_processor_pass_lookup (cfg : OrchConfig)
    (outcomes : String → ExecOutcome) (st : OrchState) (x : String)
    (hx : x ∉ st.task_queue.filter (queue_task_ready st)) :
    dlookup (task_processor_pass cfg outcomes st).active_tasks x =
      dlookup st.active_tasks x := by
  rw [task_processor_pass]
  by_cases hq : st.task_queue = []
  · rw [if_pos hq]
  · rw [if_neg hq]
    dsimp only
    split
    · rfl
    · have hnotexec : x ∉ pySliceTo
          (st.task_queue.filter (queue_task_ready st))
          ((cfg.max_concurrent_tasks : Int) -
            (count_running st.active_tasks : Int)) :=
        fun hh => hx (pySliceTo_subset _ _ x hh)
      rw [complete_all_lookup _ _ _ _
          (fun p hp hpx => hnotexec
            (by rw [← hpx]; exact dispatch_all_fst _ _ p hp)),
        dispatch_all_lookup _ _ _ hnotexec]

/-- A queued task with a dependency that is not COMPLETED fails the
readiness check, so it is never part of a dispatch set. -/
theorem queue_task_ready_false_of_dep (st : OrchState) (tid d : String)
    (tsk dtsk : Task)
    (htask : dlookup st.active_tasks tid = some tsk)
    (hdep : d ∈ tsk.dependencies)
    (hd : dlookup st.active_tasks d = some dtsk)
    (hterm : dtsk.status ≠ TaskStatus.completed) :
    queue_task_ready st tid = false := by
  rw [queue_task_ready, htask]
  dsimp only
  rw [are_dependencies_satisfied]
  cases hall : tsk.dependencies.all (fun dep_id =>
      match dlookup st.active_tasks dep_id with
      | some dep_task => dep_task.status = TaskStatus.completed
      | none => false)
  · rfl
  · exfalso
    have hda := List.all_eq_true.mp hall d hdep
    rw [hd] at hda
    dsimp only at hda
    exact hterm (of_decide_eq_true hda)

/-- C4: a task with a dependency stuck FAILED or CANCELLED (and absent
from the queue, as execution removes dispatched tasks from it) is never
classified ready, stays PENDING and stays queued across every number of
processor passes — it never reaches RUNNING (only dispatch sets
RUNNING, and only on ready tasks) and is never automatically marked
CANCELLED or FAILED. -/
theorem C4_dependency_gate (cfg : OrchConfig)
    (outcomes : String → ExecOutcome) (st : OrchState) (tid d : String)
    (tsk dtsk : Task)
    (htask : dlookup st.active_tasks tid = some tsk)
    (hpend : tsk.status = TaskStatus.pending)
    (hdep : d ∈ tsk.dependencies)
    (hd : dlookup st.active_tasks d = some dtsk)
    (hfc : dtsk.status = TaskStatus.failed ∨
      dtsk.status = TaskStatus.cancelled)
    (hq : tid ∈ st.task_queue)
    (hdq : d ∉ st.task_queue) :
    ∀ n : Nat,
      get_task_status ((task_processor_pass cfg outcomes)^[n] st) tid =
        some TaskStatus.pending ∧
      tid ∈ ((task_processor_pass cfg outcomes)^[n] st).task_queue ∧
      queue_task_ready ((task_processor_pass cfg outcomes)^[n] st) tid =
        false := by
  have hterm : dtsk.status ≠ TaskStatus.completed := by
    rcases hfc with h | h <;> rw [h] <;> decide
  have key : ∀ n,
      dlookup ((task_processor_pass cfg outcomes)^[n] st).active_tasks tid =
        some tsk ∧
      dlookup ((task_processor_pass cfg outcomes)^[n] st).active_tasks d =
        some dtsk ∧
      tid ∈ ((task_processor_pass cfg outcomes)^[n] st).task_queue ∧
      d ∉ ((task_processor_pass cfg outcomes)^[n] st).task_queue := by
    intro n
    induction n with
    | zero => exact ⟨htask, hd, hq, hdq⟩
    | succ n ih =>
        obtain ⟨h1, h2, h3, h4⟩ := ih
        rw [Function.iterate_succ_apply']
        have hready := queue_task_ready_false_of_dep _ tid d tsk dtsk
          h1 hdep h2 hterm
        have hxfil : tid ∉ ((task_processor_pass cfg outcomes)^[n]
            st).task_queue.filter
            (queue_task_ready ((task_processor_pass cfg outcomes)^[n] st)) := by
          intro hm
          have := (List.mem_filter.mp hm).2
          rw [hready] at this
          cases this
        have hdfil : d ∉ ((task_processor_pass cfg outcomes)^[n]
            st).task_queue.filter
            (queue_task_ready ((task_processor_pass cfg outcomes)^[n] st)) :=
          fun hm => h4 ((List.mem_filter.mp hm).1)
        refine ⟨?_, ?_, ?_, ?_⟩
        · rw [task_processor_pass_lookup _ _ _ _ hxfil]
          exact h1
        · rw [task_processor_pass_lookup _ _ _ _ hdfil]
          exact h2
        · rw [task_processor_pass_queue]
          exact List.mem_filter.mpr ⟨h3, by simp [hready]⟩
        · rw [task_processor_pass_queue]
          exact fun hm => h4 ((List.mem_filter.mp hm).1)
  intro n
  obtain ⟨h1, h2, h3, h4⟩ := key n
  refine ⟨?_, h3, queue_task_ready_false_of_dep _ tid d tsk dtsk
    h1 hdep h2 hterm⟩
  rw [get_task_status, h1]
  simp [hpend]

/-- Concrete dependency-stall scenario: `t` depends on `d`, `d` FAILED
and left the queue, `t` pending and queued. -/
def C4_dtask : Task := { id := "d", type := "w", status := TaskStatus.failed }

def C4_task : Task := { id := "t", type := "w", dependencies := ["d"] }

def C4_st : OrchState :=
  { active_tasks := [("d", C4_dtask), ("t", C4_task)]
    task_queue := ["t"] }

theorem C4_dependency_gate_witness :
    dlookup C4_st.active_tasks "t" = some C4_task ∧
    C4_task.status = TaskStatus.pending ∧
    "d" ∈ C4_task.dependencies ∧
    dlookup C4_st.active_tasks "d" = some C4_dtask ∧
    (C4_dtask.status = TaskStatus.failed ∨
      C4_dtask.status = TaskStatus.cancelled) ∧
    "t" ∈ C4_st.task_queue ∧ "d" ∉ C4_st.task_queue ∧
    (get_task_status ((task_processor_pass {} C2_outcomes)^[3] C4_st) "t" =
        some TaskStatus.pending ∧
      "t" ∈ ((task_processor_pass {} C2_outcomes)^[3] C4_st).task_queue ∧
      queue_task_ready ((task_processor_pass {} C2_outcomes)^[3] C4_st) "t" =
        false) :=
  ⟨rfl, rfl, by decide, rfl, Or.inl rfl, by decide, by decide,
   C4_dependency_gate {} C2_outcomes C4_st "t" "d" C4_task C4_dtask
     rfl rfl (by decide) rfl (Or.inl rfl) (by decide) (by decide) 3⟩

/-! ## Claim C8 -/

theorem mem_of_dlookup {α : Type} {d : Dict α} {k : String} {v : α}
    (h : dlookup d k = some v) : (k, v) ∈ d := by
  induction d with
  | nil => simp [dlookup] at h
  | cons kv rest ih =>
      obtain ⟨k', v'⟩ := kv
      by_cases hk : k' = k
      · subst hk
        have hv : v' = v := by simpa [dlookup] using h
        subst hv
        exact List.mem_cons_self _ _
      · simp only [dlookup, if_neg hk] at h
        exact List.mem_cons_of_mem _ (ih h)

theorem dlookup_eq_of_mem_nodup {α : Type} {d : Dict α} {k : String} {v : α}
    (hnd : (d.map Prod.fst).Nodup) (h : (k, v) ∈ d) :
    dlookup d k = some v := by
  induction d with
  | nil => simp at h
  | cons kv rest ih =>
      obtain ⟨k', v'⟩ := kv
      simp only [List.map_cons, List.nodup_cons] at hnd
      rcases List.mem_cons.mp h with heq | h
      · cases heq
        simp [dlookup]
      · have hk : k' ≠ k := by
          intro he
          subst he
          exact hnd.1 (by simpa using List.mem_map_of_mem Prod.fst h)
        simp only [dlookup, if_neg hk]
        exact ih hnd.2 h

theorem mem_of_mem_derase {α : Type} {d : Dict α} {k : String}
    {p : String × α} (h : p ∈ derase d k) : p ∈ d := by
  induction d with
  | nil => simp [derase] at h
  | cons kv rest ih =>
      obtain ⟨k', v'⟩ := kv
      by_cases hk : k' = k
      · simp only [derase, if_pos hk] at h
        exact List.mem_cons_of_mem _ (ih h)
      · simp only [derase, if_neg hk] at h
        rcases List.mem_cons.mp h with heq | h
        · exact heq ▸ List.mem_cons_self _ _
        · exact List.mem_cons_of_mem _ (ih h)

theorem setDiscard_not_mem (s : List String) (x : String) :
    x ∉ setDiscard s x := by
  simp [setDiscard]

theorem setDiscard_subset {s : List String} {x y : String}
    (h : y ∈ setDiscard s x) : y ∈ s := by
  simp only [setDiscard, List.mem_filter] at h
  exact h.1

/-- After `index_discard cid idx key`, `cid` is absent from the entry
under `key`. -/
theorem index_discard_not_mem_self (cid : String) (idx : Dict (List String))
    (key : String) :
    cid ∉ (dlookup (index_discard cid idx key) key).getD [] := by
  rw [index_discard]
  rcases hl : dlookup idx key with - | s
  · simp [hl]
  · dsimp only
    by_cases he : setDiscard s cid = []
    · rw [if_pos he, dlookup_derase_self]
      simp
    · rw [if_neg he, dlookup_dinsert_self]
      simpa using setDiscard_not_mem s cid

/-- `index_discard` only ever shrinks entries: an id absent from an
entry stays absent, whichever id is being discarded. -/
theorem index_discard_preserve_not_mem (x cid : String)
    (idx : Dict (List String)) (key k : String)
    (h : cid ∉ (dlookup idx k).getD []) :
    cid ∉ (dlookup (index_discard x idx key) k).getD [] := by
  rw [index_discard]
  rcases hl : dlookup idx key with - | s
  · exact h
  · dsimp only
    by_cases hk : key = k
    · subst hk
      by_cases he : setDiscard s x = []
      · rw [if_pos he, dlookup_derase_self]
        simp
      · rw [if_neg he, dlookup_dinsert_self]
        intro hmem
        rw [hl] at h
        exact h (by simpa using setDiscard_subset (by simpa using hmem))
    · by_cases he : setDiscard s x = []
      · rw [if_pos he, dlookup_derase_ne _ _ _ hk]
        exact h
      · rw [if_neg he, dlookup_dinsert_ne _ _ _ _ hk]
        exact h

theorem discard_agent_preserve_not_mem (x cid : String)
    (l : Dict (Dict String)) (idx : Dict (List String)) (k : String)
    (h : cid ∉ (dlookup idx k).getD []) :
    cid ∉ (dlookup (discard_agent_indexes x idx l) k).getD [] := by
  induction l generalizing idx with
  | nil => exact h
  | cons kv rest ih =>
      rw [discard_agent_indexes] at *
      exact ih _ (index_discard_preserve_not_mem x cid idx kv.1 k h)

theorem discard_agent_not_mem_of_key (cid : String)
    (l : Dict (Dict String)) (idx : Dict (List String)) (a : String)
    (ha : a ∈ l.map Prod.fst) :
    cid ∉ (dlookup (discard_agent_indexes cid idx l) a).getD [] := by
  induction l generalizing idx with
  | nil => simp at ha
  | cons kv rest ih =>
      rw [discard_agent_indexes] at *
      rw [List.map_cons] at ha
      rcases List.mem_cons.mp ha with heq | hmem
      · subst heq
        exact discard_agent_preserve_not_mem cid cid rest _ _
          (index_discard_not_mem_self cid idx kv.1)
      · exact ih _ hmem

/-- Active-context table well-formedness: every binding stores the
context under its own conversation id (as every `ContextManager` code
path does). -/
def cm_wf (st : CMState) : Prop :=
  ∀ p ∈ st.active_contexts, p.2.conversation_id = p.1

/-- The post-removal facts C8 asserts for an expired conversation:
gone from the active set, gone from the user and agent indexes, and its
backing record moved (not deleted) into the archive. -/
def C8_done (cid uid : String) (agents : List String) (now : Nat)
    (rec : StoredContext) (s : CMState) : Prop :=
  dlookup s.active_contexts cid = none ∧
  cid ∉ (dlookup s.index_user_id uid).getD [] ∧
  (∀ a ∈ agents, cid ∉ (dlookup s.index_agent_states a).getD []) ∧
  dlookup s.store cid = none ∧
  (cid, now, rec) ∈ s.archived

/-- A removal step never resurrects anything: all five `C8_done` facts
are preserved by removing any further conversation. -/
theorem reo_done_preserved (cfg : CMConfig) (swt : Nat)
    (cid uid : String) (agents : List String) (now : Nat)
    (rec : StoredContext) (s : CMState) (e : String)
    (h : C8_done cid uid agents now rec s) :
    C8_done cid uid agents now rec (remove_expired_one cfg swt s e) := by
  obtain ⟨h1, h2, h3, h4, h5⟩ := h
  rw [remove_expired_one]
  rcases hl : dlookup s.active_contexts e with - | ctx
  · exact ⟨h1, h2, h3, h4, h5⟩
  · dsimp only
    rw [remove_from_indexes]
    dsimp only
    have hact : dlookup (derase s.active_contexts e) cid = none := by
      by_cases he : e = cid
      · subst he
        exact dlookup_derase_self _ _
      · rw [dlookup_derase_ne _ _ _ he]
        exact h1
    have hidxU := index_discard_preserve_not_mem ctx.conversation_id cid
      s.index_user_id ctx.user_id uid h2
    have hidxA := fun a ha => discard_agent_preserve_not_mem
      ctx.conversation_id cid ctx.agent_states s.index_agent_states a
      (h3 a ha)
    split
    · rw [archive_context]
      rcases hst : dlookup s.store ctx.conversation_id with - | rec2
      · exact ⟨hact, hidxU, hidxA, h4, h5⟩
      · refine ⟨hact, hidxU, hidxA, ?_, List.mem_append_left _ h5⟩
        by_cases he : ctx.conversation_id = cid
        · rw [he, dlookup_derase_self]
        · rw [dlookup_derase_ne _ _ _ he]
          exact h4
    · exact ⟨hact, hidxU, hidxA, h4, h5⟩

/-- Removing a different conversation id leaves the active binding of
`cid` unchanged. -/
theorem reo_active_other (cfg : CMConfig) (swt : Nat) (s : CMState)
    (e cid : String) (hne : e ≠ cid) :
    dlookup (remove_expired_one cfg swt s e).active_contexts cid =
      dlookup s.active_contexts cid := by
  rw [remove_expired_one]
  rcases hl : dlookup s.active_contexts e with - | ctx
  · rfl
  · dsimp only
    rw [remove_from_indexes]
    dsimp only
    split
    · rw [archive_context]
      rcases hst : dlookup s.store ctx.conversation_id with - | rec2 <;>
        · dsimp only
          rw [dlookup_derase_ne _ _ _ hne]
    · rw [dlookup_derase_ne _ _ _ hne]

/-- In a well-formed state, removing a different conversation id leaves
the backing record of `cid` in place. -/
theorem reo_store_other (cfg : CMConfig) (swt : Nat) (s : CMState)
    (e cid : String) (hwf : cm_wf s) (hne : e ≠ cid) :
    dlookup (remove_expired_one cfg swt s e).store cid =
      dlookup s.store cid := by
  rw [remove_expired_one]
  rcases hl : dlookup s.active_contexts e with - | ctx
  · rfl
  · have hce : ctx.conversation_id = e := hwf (e, ctx) (mem_of_dlookup hl)
    dsimp only
    rw [remove_from_indexes]
    dsimp only
    split
    · rw [archive_context]
      rcases hst : dlookup s.store ctx.conversation_id with - | rec2
      · rfl
      · dsimp only
        rw [dlookup_derase_ne _ _ _ (by rw [hce]; exact hne)]
    · rfl

/-- Removals preserve well-formedness of the active table. -/
theorem reo_wf (cfg : CMConfig) (swt : Nat) (s : CMState) (e : String)
    (hwf : cm_wf s) : cm_wf (remove_expired_one cfg swt s e) := by
  rw [remove_expired_one]
  rcases hl : dlookup s.active_contexts e with - | ctx
  · exact hwf
  · dsimp only
    rw [remove_from_indexes]
    dsimp only
    have hsub : cm_wf { s with
        active_contexts := derase s.active_contexts e } :=
      fun p hp => hwf p (mem_of_mem_derase hp)
    split
    · rw [archive_context]
      rcases hst : dlookup s.store ctx.conversation_id with - | rec2
      · exact fun p hp => hwf p (mem_of_mem_derase hp)
      · exact fun p hp => hwf p (mem_of_mem_derase hp)
    · exact fun p hp => hwf p (mem_of_mem_derase hp)

/-- Removing the expired conversation itself establishes all five
`C8_done` facts (persistence enabled, record present). -/
theorem reo_establish (cfg : CMConfig) (now : Nat) (s : CMState)
    (cid : String) (c : Context) (rec : StoredContext)
    (hper : cfg.enable_persistence = true)
    (hc : dlookup s.active_contexts cid = some c)
    (hcid : c.conversation_id = cid)
    (hrec : dlookup s.store cid = some rec) :
    C8_done cid c.user_id (c.agent_states.map Prod.fst) now rec
      (remove_expired_one cfg now s cid) := by
  rw [remove_expired_one, hc]
  dsimp only
  rw [remove_from_indexes]
  dsimp only
  rw [if_pos hper, archive_context]
  dsimp only
  rw [hcid, hrec]
  dsimp only
  refine ⟨dlookup_derase_self _ _, ?_, ?_, ?_, ?_⟩
  · exact index_discard_not_mem_self cid s.index_user_id c.user_id
  · intro a ha
    exact discard_agent_not_mem_of_key cid c.agent_states
      s.index_agent_states a ha
  · exact dlookup_derase_self _ _
  · exact List.mem_append_right _ (List.mem_singleton.mpr rfl)

theorem fold_reo_done (cfg : CMConfig) (swt : Nat) (cid uid : String)
    (agents : List String) (now : Nat) (rec : StoredContext) :
    ∀ (l : List String) (s : CMState),
      C8_done cid uid agents now rec s →
      C8_done cid uid agents now rec
        (l.foldl (remove_expired_one cfg swt) s) := by
  intro l
  induction l with
  | nil => intro s h; exact h
  | cons e rest ih =>
      intro s h
      exact ih _ (reo_done_preserved cfg swt cid uid agents now rec s e h)

theorem fold_reo_reaches_done (cfg : CMConfig) (now : Nat) (cid : String)
    (c : Context) (rec : StoredContext)
    (hper : cfg.enable_persistence = true)
    (hcid : c.conversation_id = cid) :
    ∀ (l : List String) (s : CMState), cid ∈ l → cm_wf s →
      dlookup s.active_contexts cid = some c →
      dlookup s.store cid = some rec →
      C8_done cid c.user_id (c.agent_states.map Prod.fst) now rec
        (l.foldl (remove_expired_one cfg now) s) := by
  intro l
  induction l with
  | nil => intro s hmem; simp at hmem
  | cons e rest ih =>
      intro s hmem hwf hc hrec
      rw [List.foldl_cons]
      by_cases he : e = cid
      · subst he
        exact fold_reo_done cfg now e c.user_id _ now rec rest _
          (reo_establish cfg now s e c rec hper hc hcid hrec)
      · have hmem2 : cid ∈ rest := by
          rcases List.mem_cons.mp hmem with hh | hh
          · exact absurd hh.symm he
          · exact hh
        exact ih _ hmem2 (reo_wf cfg now s e hwf)
          (by rw [reo_active_other cfg now s e cid he]; exact hc)
          (by rw [reo_store_other cfg now s e cid hwf he]; exact hrec)

theorem fold_reo_active_other (cfg : CMConfig) (swt : Nat) (cid : String) :
    ∀ (l : List String) (s : CMState), (∀ e ∈ l, e ≠ cid) →
      dlookup (l.foldl (remove_expired_one cfg swt) s).active_contexts cid =
        dlookup s.active_contexts cid := by
  intro l
  induction l with
  | nil => intro s _; rfl
  | cons e rest ih =>
      intro s h
      rw [List.foldl_cons, ih _ (fun x hx => h x (List.mem_cons_of_mem _ hx)),
        reo_active_other cfg swt s e cid (h e (List.mem_cons_self _ _))]

/-- C8: under the throttle, a sweep at time `now` archives every active
context idle past the TTL — removing it from the active set, from its
user index entry and from every agent index entry it occupied, and
moving (not deleting) its backing record into the archive tagged with
the sweep time — while every active context within the TTL keeps its
active binding untouched. -/
theorem C8_cleanup_expired (cfg : CMConfig) (now : Nat) (st : CMState)
    (cid : String) (c : Context) (rec : StoredContext)
    (hper : cfg.enable_persistence = true)
    (hthr : should_cleanup cfg now st = true)
    (hwf : cm_wf st)
    (hnd : (st.active_contexts.map Prod.fst).Nodup)
    (hc : dlookup st.active_contexts cid = some c)
    (hexp : (cfg.context_ttl_hours : Int) * 3600 <
      (now : Int) - (c.updated_at : Int))
    (hrec : dlookup st.store cid = some rec) :
    dlookup (cleanup_expired_contexts cfg now st).2.active_contexts cid =
      none ∧
    cid ∉ (dlookup (cleanup_expired_contexts cfg now st).2.index_user_id
      c.user_id).getD [] ∧
    (∀ a ∈ c.agent_states.map Prod.fst,
      cid ∉ (dlookup (cleanup_expired_contexts cfg now
        st).2.index_agent_states a).getD []) ∧
    dlookup (cleanup_expired_contexts cfg now st).2.store cid = none ∧
    (cid, now, rec) ∈ (cleanup_expired_contexts cfg now st).2.archived ∧
    (∀ cid₂ c₂, dlookup st.active_contexts cid₂ = some c₂ →
      (now : Int) - (c₂.updated_at : Int) ≤
        (cfg.context_ttl_hours : Int) * 3600 →
      dlookup (cleanup_expired_contexts cfg now st).2.active_contexts cid₂ =
        some c₂) := by
  have hcid : c.conversation_id = cid := hwf (cid, c) (mem_of_dlookup hc)
  rw [cleanup_expired_contexts, if_neg (by rw [hthr]; simp)]
  dsimp only
  have hcmem : cid ∈ (st.active_contexts.filter
      (fun kv => (now : Int) - (kv.2.updated_at : Int) >
        (cfg.context_ttl_hours : Int) * 3600)).map Prod.fst := by
    refine List.mem_map_of_mem Prod.fst (List.mem_filter.mpr
      ⟨mem_of_dlookup hc, ?_⟩)
    simpa using hexp
  have hdone := fold_reo_reaches_done cfg now cid c rec hper hcid _ st
    hcmem hwf hc hrec
  obtain ⟨h1, h2, h3, h4, h5⟩ := hdone
  refine ⟨h1, h2, h3, h4, h5, ?_⟩
  intro cid₂ c₂ hc₂ hle
  have hnot : ∀ e ∈ (st.active_contexts.filter
      (fun kv => (now : Int) - (kv.2.updated_at : Int) >
        (cfg.context_ttl_hours : Int) * 3600)).map Prod.fst, e ≠ cid₂ := by
    intro e hemem hecid
    subst hecid
    simp only [List.mem_map] at hemem
    obtain ⟨⟨k, v⟩, hkv, hk⟩ := hemem
    cases hk
    have hkv2 := List.mem_filter.mp hkv
    have hveq : v = c₂ := by
      have hlk := dlookup_eq_of_mem_nodup hnd hkv2.1
      rw [hlk] at hc₂
      injection hc₂
    have hgt := hkv2.2
    rw [hveq] at hgt
    simp only [decide_eq_true_eq] at hgt
    exact absurd hle (not_le.mpr hgt)
  rw [fold_reo_active_other cfg now cid₂ _ st hnot]
  exact hc₂

/-- Concrete C8 scenario: TTL one hour; `old` last touched 61 minutes
before the sweep, `new` touched 10 minutes before. -/
def C8_cfg : CMConfig := { context_ttl_hours := 1 }

def C8_c_old : Context :=
  { conversation_id := "old", user_id := "u"
    agent_states := [("ag", [])], updated_at := 6340 }

def C8_c_new : Context :=
  { conversation_id := "new", user_id := "u", updated_at := 9400 }

def C8_rec_old : StoredContext := persist_record C8_c_old

def C8_st : CMState :=
  { active_contexts := [("old", C8_c_old), ("new", C8_c_new)]
    index_user_id := [("u", ["old", "new"])]
    index_agent_states := [("ag", ["old"])]
    store := [("old", C8_rec_old), ("new", persist_record C8_c_new)]
    last_cleanup := 0 }

theorem C8_cleanup_expired_witness :
    C8_cfg.enable_persistence = true ∧
    should_cleanup C8_cfg 10000 C8_st = true ∧
    cm_wf C8_st ∧
    (C8_st.active_contexts.map Prod.fst).Nodup ∧
    dlookup C8_st.active_contexts "old" = some C8_c_old ∧
    ((C8_cfg.context_ttl_hours : Int) * 3600 <
      (10000 : Int) - (C8_c_old.updated_at : Int)) ∧
    dlookup C8_st.store "old" = some C8_rec_old ∧
    dlookup (cleanup_expired_contexts C8_cfg 10000 C8_st).2.active_contexts
      "old" = none ∧
    "old" ∉ (dlookup (cleanup_expired_contexts C8_cfg 10000
      C8_st).2.index_user_id C8_c_old.user_id).getD [] ∧
    (∀ a ∈ C8_c_old.agent_states.map Prod.fst,
      "old" ∉ (dlookup (cleanup_expired_contexts C8_cfg 10000
        C8_st).2.index_agent_states a).getD []) ∧
    dlookup (cleanup_expired_contexts C8_cfg 10000 C8_st).2.store "old" =
      none ∧
    ("old", 10000, C8_rec_old) ∈
      (cleanup_expired_contexts C8_cfg 10000 C8_st).2.archived ∧
    dlookup (cleanup_expired_contexts C8_cfg 10000 C8_st).2.active_contexts
      "new" = some C8_c_new := by
  have h := C8_cleanup_expired C8_cfg 10000 C8_st "old" C8_c_old C8_rec_old
    rfl (by decide) (by unfold cm_wf; decide) (by decide) rfl (by decide) rfl
  exact ⟨rfl, by decide, by unfold cm_wf; decide, by decide, rfl, by decide,
    rfl,
    h.1, h.2.1, h.2.2.1, h.2.2.2.1, h.2.2.2.2.1,
    h.2.2.2.2.2 "new" C8_c_new rfl (by decide)⟩

/-! ## Claim C9 -/

theorem dlookup_eq_none_of_forall_ne {α : Type} {d : Dict α} {k : String}
    (h : ∀ x ∈ d.map Prod.fst, x ≠ k) : dlookup d k = none := by
  induction d with
  | nil => rfl
  | cons kv rest ih =>
      obtain ⟨k', v'⟩ := kv
      simp only [dlookup, if_neg (h k' (by simp))]
      exact ih (fun x hx => h x (by simp [hx]))

/-- An agent absent from the source is untouched by the agent-state
merge loop. -/
theorem merge_agent_states_lookup_none (src : Dict (Dict String))
    (tgt : Dict (Dict String)) (a : String)
    (h : dlookup src a = none) :
    dlookup (merge_agent_states tgt src) a = dlookup tgt a := by
  induction src generalizing tgt with
  | nil => rfl
  | cons kv rest ih =>
      obtain ⟨a0, s0⟩ := kv
      by_cases ha : a0 = a
      · simp [dlookup, ha] at h
      · simp only [dlookup, if_neg ha] at h
        rw [merge_agent_states]
        rcases hl : dlookup tgt a0 with - | t0 <;>
          · simp only [hl]
            rw [ih _ h, dlookup_dinsert_ne _ _ _ _ ha]

/-- An agent present in the source ends up with the per-agent union,
source winning on key conflicts (target state updated when present,
source state copied otherwise). -/
theorem merge_agent_states_lookup_some (src : Dict (Dict String))
    (tgt : Dict (Dict String)) (a : String) (d : Dict String)
    (hnd : (src.map Prod.fst).Nodup)
    (h : dlookup src a = some d) :
    dlookup (merge_agent_states tgt src) a =
      some (match dlookup tgt a with
            | some t0 => dupdate t0 d
            | none => d) := by
  induction src generalizing tgt with
  | nil => simp [dlookup] at h
  | cons kv rest ih =>
      obtain ⟨a0, s0⟩ := kv
      simp only [List.map_cons, List.nodup_cons] at hnd
      by_cases ha : a0 = a
      · subst ha
        have hv : s0 = d := by simpa [dlookup] using h
        subst hv
        rw [merge_agent_states]
        have hrest : dlookup rest a0 = none :=
          dlookup_eq_none_of_forall_ne
            (fun x hx hxe => hnd.1 (hxe ▸ hx))
        rcases hl : dlookup tgt a0 with - | t0 <;>
          · simp only [hl]
            rw [merge_agent_states_lookup_none rest _ _ hrest,
              dlookup_dinsert_self]
      · simp only [dlookup, if_neg ha] at h
        rw [merge_agent_states]
        rcases hl : dlookup tgt a0 with - | t0 <;>
          · simp only [hl]
            rw [ih _ hnd.2 h, dlookup_dinsert_ne _ _ _ _ ha]

/-- Two active contexts; the source was last touched at time 0, and the
merge runs at time 100. -/
def C9_tc : Context :=
  { conversation_id := "t", user_id := "u"
    shared_memory := [("a", "1"), ("k", "tval")]
    agent_states := [("ag", [("x", "0"), ("y", "2")])]
    active_tasks := [{ id := "w1", type := "w" }]
    updated_at := 5 }

def C9_sc : Context :=
  { conversation_id := "s", user_id := "u"
    shared_memory := [("k", "sval")]
    agent_states := [("ag", [("x", "1")])]
    active_tasks := [{ id := "w1", type := "w" }, { id := "w2", type := "w" }]
    updated_at := 0 }

def C9_st : CMState :=
  { active_contexts := [("t", C9_tc), ("s", C9_sc)] }

/-- C9 counterexample: `merge_contexts` does NOT leave the source
context unchanged — the `get_context` lookup the merge performs
refreshes the source's `updated_at` (0 before, 100 after the merge at
time 100), extending its TTL life. All other claimed merge effects
hold, but the claim as stated (source unchanged) is false. -/
theorem C9_counterexample :
    (merge_contexts {} 100 C9_st "t" "s").1 = true ∧
    C9_sc.updated_at = 0 ∧
    (dlookup (merge_contexts {} 100 C9_st "t" "s").2.active_contexts
      "s").map Context.updated_at = some 100 ∧
    dlookup (merge_contexts {} 100 C9_st "t" "s").2.active_contexts "s" ≠
      some C9_sc :=
  ⟨by decide, rfl, by decide, by decide⟩

/-- C9 (amended): `merge_contexts(target, source)` merges session data,
shared memory and agent states into the target with the source winning
key conflicts (per-agent dict union), appends exactly the source tasks
whose ids are absent from the target, leaves target-only shared-memory
keys unaffected, and keeps the source registered with all data fields
unchanged — except that the source's `updated_at` is refreshed to the
merge time by the lookup (the source is not deleted). -/
theorem C9_merge_contexts (cfg : CMConfig) (now : Nat) (st : CMState)
    (tid sid : String) (tc sc : Context)
    (hshare : cfg.enable_context_sharing = true)
    (hne : tid ≠ sid)
    (ht : dlookup st.active_contexts tid = some tc)
    (hs : dlookup st.active_contexts sid = some sc)
    (hnd_sess : (sc.session_data.map Prod.fst).Nodup)
    (hnd_mem : (sc.shared_memory.map Prod.fst).Nodup)
    (hnd_ag : (sc.agent_states.map Prod.fst).Nodup) :
    (merge_contexts cfg now st tid sid).1 = true ∧
    dlookup (merge_contexts cfg now st tid sid).2.active_contexts sid =
      some { sc with updated_at := now } ∧
    ∃ tcm,
      dlookup (merge_contexts cfg now st tid sid).2.active_contexts tid =
        some tcm ∧
      tcm.active_tasks = tc.active_tasks ++
        sc.active_tasks.filter
          (fun task => task.id ∉ tc.active_tasks.map Task.id) ∧
      (∀ k v, dlookup sc.shared_memory k = some v →
        dlookup tcm.shared_memory k = some v) ∧
      (∀ k, dlookup sc.shared_memory k = none →
        dlookup tcm.shared_memory k = dlookup tc.shared_memory k) ∧
      (∀ k v, dlookup sc.session_data k = some v →
        dlookup tcm.session_data k = some v) ∧
      (∀ k, dlookup sc.session_data k = none →
        dlookup tcm.session_data k = dlookup tc.session_data k) ∧
      (∀ a, dlookup sc.agent_states a = none →
        dlookup tcm.agent_states a = dlookup tc.agent_states a) ∧
      (∀ a d, dlookup sc.agent_states a = some d →
        dlookup tcm.agent_states a =
          some (match dlookup tc.agent_states a with
                | some t0 => dupdate t0 d
                | none => d)) := by
  have hgt : get_context cfg now st tid =
      (some { tc with updated_at := now },
       { st with active_contexts := (dinsert st.active_contexts tid
           { tc with updated_at := now }) }) := by
    rw [get_context, ht]
  have hgs : get_context cfg now
      { st with active_contexts := (dinsert st.active_contexts tid
          { tc with updated_at := now }) } sid =
      (some { sc with updated_at := now },
       { st with active_contexts := (dinsert (dinsert st.active_contexts tid
           { tc with updated_at := now }) sid
           { sc with updated_at := now }) }) := by
    rw [get_context, dlookup_dinsert_ne _ _ _ _ hne, hs]
  rw [merge_contexts, if_neg (by simp [hshare])]
  dsimp only
  rw [hgt]
  dsimp only
  rw [hgs]
  dsimp only
  refine ⟨rfl, ?_, ?_⟩
  · split <;>
      · dsimp only
        rw [dlookup_dinsert_ne _ _ _ _ hne, dlookup_dinsert_self]
  · refine ⟨_, by split <;> (dsimp only; rw [dlookup_dinsert_self]),
      rfl, ?_, ?_, ?_, ?_, ?_, ?_⟩
    · intro k v hk
      exact dlookup_dupdate_of_mem _ _ _ _ hnd_mem hk
    · intro k hk
      exact dlookup_dupdate_of_not_mem _ _ _ hk
    · intro k v hk
      exact dlookup_dupdate_of_mem _ _ _ _ hnd_sess hk
    · intro k hk
      exact dlookup_dupdate_of_not_mem _ _ _ hk
    · intro a ha
      exact merge_agent_states_lookup_none _ _ _ ha
    · intro a d ha
      exact merge_agent_states_lookup_some _ _ _ _ hnd_ag ha

theorem C9_merge_contexts_witness :
    ({} : CMConfig).enable_context_sharing = true ∧
    ("t" : String) ≠ "s" ∧
    dlookup C9_st.active_contexts "t" = some C9_tc ∧
    dlookup C9_st.active_contexts "s" = some C9_sc ∧
    (merge_contexts {} 100 C9_st "t" "s").1 = true ∧
    dlookup (merge_contexts {} 100 C9_st "t" "s").2.active_contexts "s" =
      some { C9_sc with updated_at := 100 } ∧
    (∃ tcm,
      dlookup (merge_contexts {} 100 C9_st "t" "s").2.active_contexts "t" =
        some tcm ∧
      tcm.active_tasks = C9_tc.active_tasks ++
        C9_sc.active_tasks.filter
          (fun task => task.id ∉ C9_tc.active_tasks.map Task.id) ∧
      (∀ k v, dlookup C9_sc.shared_memory k = some v →
        dlookup tcm.shared_memory k = some v) ∧
      (∀ k, dlookup C9_sc.shared_memory k = none →
        dlookup tcm.shared_memory k = dlookup C9_tc.shared_memory k) ∧
      (∀ k v, dlookup C9_sc.session_data k = some v →
        dlookup tcm.session_data k = some v) ∧
      (∀ k, dlookup C9_sc.session_data k = none →
        dlookup tcm.session_data k = dlookup C9_tc.session_data k) ∧
      (∀ a, dlookup C9_sc.agent_states a = none →
        dlookup tcm.agent_states a = dlookup C9_tc.agent_states a) ∧
      (∀ a d, dlookup C9_sc.agent_states a = some d →
        dlookup tcm.agent_states a =
          some (match dlookup C9_tc.agent_states a with
                | some t0 => dupdate t0 d
                | none => d))) := by
  have h := C9_merge_contexts {} 100 C9_st "t" "s" C9_tc C9_sc rfl
    (by decide) rfl rfl (by decide) (by decide) (by decide)
  exact ⟨rfl, by decide, rfl, rfl, h.1, h.2.1, h.2.2⟩

end MCPAgents
